import Mathlib

/-!
The cmix `Predictor` (src/predictor.cpp): wiring, per-bit schedule, bucket tables.

Shallow embedding of `Predictor`'s constructor (`Add*`, `AddMixers`),
`Predictor::Predict` and `Predictor::Perceive`.

Floats are an abstract value type `V`.  The components whose code lives in
other translation units (models, mixers, SSE, logistic, context manager) are
represented by the functions of `Components`: during one `Predict` call the
persistent state of every component is fixed, so each `Predict()` / `Mix()` /
`Process()` is a function of the component and of the inputs it reads.

Of the constructor the embedding keeps what the driver itself indexes: the
order and kind of the registered models, the auxiliary list, the layers and
the mixers with the input vector and input size each was given.  Model
parameters that are floats or table sizes, and the contexts registered with
the ContextManager, play no part in the wiring and are left out.
-/

namespace Cmix

/-! ## Bucket tables (`AddInterval`, `AddMixers`) -/

/-- C++ promotion of a comparison result to `int`. -/
def boolToInt (b : Bool) : Int := if b then 1 else 0

/-- Right-hand side of `map[i] = ...` in `AddInterval` (lines 278-281). -/
def AddInterval_bucket (i : Int) : Int :=
  boolToInt (i < 41) + boolToInt (i < 92) + boolToInt (i < 124) + boolToInt (i < 58) +
  boolToInt (i < 11) + boolToInt (i < 46) + boolToInt (i < 36) + boolToInt (i < 47) +
  boolToInt (i < 64) + boolToInt (i < 4) + boolToInt (i < 61) + boolToInt (i < 97) +
  boolToInt (i < 125) + boolToInt (i < 45) + boolToInt (i < 48)

/-- Right-hand side of `map1[i] = ...` in `AddMixers` (lines 338-339). -/
def AddMixers_bucket1 (i : Int) : Int :=
  boolToInt (i < 1) + boolToInt (i < 32) + boolToInt (i < 64) + boolToInt (i < 128) +
  boolToInt (i < 255) + boolToInt (i < 142) + boolToInt (i < 138) + boolToInt (i < 140) +
  boolToInt (i < 137) + boolToInt (i < 97)

/-- Right-hand side of `map2[i] = ...` in `AddMixers` (lines 340-343). -/
def AddMixers_bucket2 (i : Int) : Int :=
  boolToInt (i < 41) + boolToInt (i < 92) + boolToInt (i < 124) + boolToInt (i < 58) +
  boolToInt (i < 11) + boolToInt (i < 46) + boolToInt (i < 36) + boolToInt (i < 47) +
  boolToInt (i < 64) + boolToInt (i < 4) + boolToInt (i < 61) + boolToInt (i < 97) +
  boolToInt (i < 125) + boolToInt (i < 45) + boolToInt (i < 48)

/-- The loop `std::vector<int> map(256, 0); for (int i = 0; i < 256; ++i) map[i] = f(i);`. -/
def fillTable (f : Int → Int) : List Int :=
  (List.range 256).foldl (fun m i => m.set i (f (Int.ofNat i))) (List.replicate 256 0)

/-- Table `map` of `AddInterval`. -/
def AddInterval_map : List Int := fillTable AddInterval_bucket

/-- Table `map1` of `AddMixers`. -/
def AddMixers_map1 : List Int := fillTable AddMixers_bucket1

/-- Table `map2` of `AddMixers`. -/
def AddMixers_map2 : List Int := fillTable AddMixers_bucket2

/-! ## Data model -/

/-- Kinds of bit models pushed on `models_` by `Add(Model*)`. -/
inductive Model where
  | Bracket
  | Direct
  | DirectHash
  | Indirect
  | ByteRun
  | Match
  | DMC
  | PAQ8HP
  | PAQ8L
  | Facade (i : Nat)
  deriving DecidableEq, Repr

/-- Kinds of byte models pushed on `byte_models_` by `AddByteModel`. -/
inductive ByteModel where
  | PPM (order : Nat)
  | PPMD
  deriving DecidableEq, Repr

/-- What the constructor fixes about a `Mixer`: the layer whose `Inputs()` it
was handed, and its `input_size` argument. -/
structure Mixer where
  inputs : Nat
  input_size : Nat
  deriving DecidableEq, Repr

/-- What the driver fixes about the `ByteMixer`: the number of byte models it
was constructed for, `vocab_size`, and its input vector. -/
structure ByteMixer (V : Type) where
  num_models : Nat
  vocab_size : Nat
  input : List V

/-- State of `Predictor` that the driver itself reads and writes.
`layers_[k]` is the `inputs_` vector of the k-th `MixerInput`;
`bit_context_` is `manager_.bit_context_`. -/
structure Predictor (V : Type) where
  models_ : List Model
  byte_models_ : List ByteModel
  auxiliary_ : List Nat
  layers_ : List (List V)
  mixers_ : List (List Mixer)
  byte_mixer_ : ByteMixer V
  bit_context_ : Nat

namespace Predictor

variable {V : Type}

/-- `Predictor::GetNumModels`. -/
def GetNumModels (p : Predictor V) : Nat :=
  p.models_.length + p.byte_models_.length + 1

/-- `Predictor::Add(Model*)`. -/
def Add (p : Predictor V) (m : Model) : Predictor V :=
  { p with models_ := p.models_ ++ [m] }

/-- `Predictor::AddByteModel`. -/
def AddByteModel (p : Predictor V) (m : ByteModel) : Predictor V :=
  { p with byte_models_ := p.byte_models_ ++ [m] }

/-- `Predictor::Add(int layer, Mixer*)`. -/
def AddMixer (p : Predictor V) (layer : Nat) (m : Mixer) : Predictor V :=
  { p with mixers_ := p.mixers_.set layer (p.mixers_.getD layer [] ++ [m]) }

/-- `Predictor::AddPAQ8HP`; `n` is `paq->ModelPredictions().size()`. -/
def AddPAQ8HP (n : Nat) (p : Predictor V) : Predictor V :=
  let p := { p with auxiliary_ := p.auxiliary_ ++ [p.models_.length] }
  let p := p.Add Model.PAQ8HP
  (List.range n).foldl (fun p i => p.Add (Model.Facade i)) p

/-- `Predictor::AddPAQ8L`; `n` is `paq->ModelPredictions().size()`. -/
def AddPAQ8L (n : Nat) (p : Predictor V) : Predictor V :=
  let p := { p with auxiliary_ := p.auxiliary_ ++ [p.models_.length] }
  let p := p.Add Model.PAQ8L
  (List.range n).foldl (fun p i => p.Add (Model.Facade i)) p

/-- `Predictor::AddBracket`. -/
def AddBracket (p : Predictor V) : Predictor V :=
  ((p.Add Model.Bracket).Add Model.Direct).Add Model.Indirect

/-- `Predictor::AddPPM`. -/
def AddPPM (p : Predictor V) : Predictor V :=
  (p.AddByteModel (ByteModel.PPM 7)).AddByteModel (ByteModel.PPM 5)

/-- `Predictor::AddPPMD`. -/
def AddPPMD (p : Predictor V) : Predictor V :=
  p.AddByteModel ByteModel.PPMD

/-- `Predictor::AddDMC`. -/
def AddDMC (p : Predictor V) : Predictor V :=
  p.Add Model.DMC

/-- `Predictor::AddByteRun`. -/
def AddByteRun (p : Predictor V) : Predictor V :=
  let model_params : List (List Nat) := [[0, 8], [1, 5], [1, 8], [2, 8]]
  model_params.foldl (fun p _ => p.Add Model.ByteRun) p

/-- `Predictor::AddNonstationary`. -/
def AddNonstationary (p : Predictor V) : Predictor V :=
  let model_params : List (List Nat) := [[0, 8], [2, 8], [4, 7], [8, 3], [12, 1], [16, 1]]
  model_params.foldl (fun p _ => p.Add Model.Indirect) p

/-- `Predictor::AddEnglish`. -/
def AddEnglish (p : Predictor V) : Predictor V :=
  let model_params : List (List Nat) := [[0], [0, 1], [7, 2],
      [7], [1], [1, 2], [1, 2, 3], [1, 3], [1, 4], [1, 5], [2, 3], [3, 4],
      [1, 2, 4], [1, 2, 3, 4], [2, 3, 4], [2], [1, 2, 3, 4, 5],
      [1, 2, 3, 4, 5, 6]]
  let p := model_params.foldl (fun p _ => p.Add Model.Indirect) p
  let model_params2 : List (List Nat) := [[0], [1], [7], [1, 3], [1, 2, 3], [7, 2]]
  model_params2.foldl (fun p params =>
    let p := p.Add Model.Match
    let p := p.Add Model.ByteRun
    if params.getD 0 0 == 1 && params.length == 1 then
      (p.Add Model.Indirect).Add Model.DirectHash
    else p) p

/-- `Predictor::AddSparse`. -/
def AddSparse (p : Predictor V) : Predictor V :=
  let model_params : List (List Nat) := [[1], [2], [3], [4],
      [5], [0, 2], [0, 3], [0, 4], [0, 5], [0, 6], [0, 7], [1, 2],
      [1, 3], [2, 3], [2, 5], [3, 4], [3, 5], [3, 7]]
  let p := model_params.foldl (fun p _ => p.Add Model.Indirect) p
  let model_params2 : List (List Nat) := [[1], [0, 2], [0, 4], [1, 2], [2, 3], [3, 4], [3, 7]]
  model_params2.foldl (fun p _ => (p.Add Model.Match).Add Model.ByteRun) p

/-- `Predictor::AddDirect`. -/
def AddDirect (p : Predictor V) : Predictor V :=
  let model_params : List (List Int) := [[0, 8], [1, 8], [2, 8], [3, 8]]
  model_params.foldl (fun p params =>
    if params.getD 0 0 < 3 then p.Add Model.Direct else p.Add Model.DirectHash) p

/-- `Predictor::AddRunMap`. -/
def AddRunMap (p : Predictor V) : Predictor V :=
  let model_params : List (List Nat) := [[0, 8], [1, 5], [1, 7], [1, 8]]
  model_params.foldl (fun p _ => p.Add Model.Indirect) p

/-- `Predictor::AddMatch`. -/
def AddMatch (p : Predictor V) : Predictor V :=
  let model_params : List (List Int) := [[0, 8], [1, 8], [2, 8], [7, 4],
      [11, 3], [13, 2], [15, 2], [17, 2], [20, 1], [25, 1]]
  model_params.foldl (fun p _ => p.Add Model.Match) p

/-- `Predictor::AddDoubleIndirect`. -/
def AddDoubleIndirect (p : Predictor V) : Predictor V :=
  let model_params : List (List Nat) := [[1, 8, 1, 8],
      [2, 8, 1, 8], [1, 8, 2, 8], [2, 8, 2, 8], [1, 8, 3, 8], [3, 8, 1, 8],
      [4, 6, 4, 8], [5, 5, 5, 5], [1, 8, 4, 8], [1, 8, 5, 6], [6, 4, 6, 4]]
  model_params.foldl (fun p _ => p.Add Model.Indirect) p

/-- `Predictor::AddInterval` (the table it builds is `AddInterval_map`). -/
def AddInterval (p : Predictor V) : Predictor V :=
  let model_params : List (List Nat) := [[2, 8], [4, 7], [8, 3], [12, 1], [16, 1]]
  model_params.foldl (fun p _ => p.Add Model.Indirect) p

/-- Modelled from the spec: `MixerInput::SetNumModels` (mixer/mixer-input is not
part of the listing); it sizes the layer's input vector to `n` entries. -/
def SetNumModels (zero : V) (p : Predictor V) (layer n : Nat) : Predictor V :=
  { p with layers_ := p.layers_.set layer (List.replicate n zero) }

/-- First part of `Predictor::AddMixers` (lines 295-307): count the vocabulary,
build the ByteMixer, push its slot on `auxiliary_`, create three empty layers.
The ByteMixer input is sized to one 256-vector per byte model (spec 4.4). -/
def AddMixers_init (zero : V) (vocab : List Bool) (p : Predictor V) : Predictor V :=
  let vocab_size : Nat := (List.range vocab.length).foldl
    (fun n i => if vocab.getD i false then n + 1 else n) 0
  let bm : ByteMixer V :=
    { num_models := p.byte_models_.length, vocab_size := vocab_size,
      input := List.replicate (256 * p.byte_models_.length) zero }
  let q : Predictor V :=
    { p with byte_mixer_ := bm,
             auxiliary_ := p.auxiliary_ ++ [p.models_.length + p.byte_models_.length] }
  (List.range 3).foldl
    (fun (r : Predictor V) _ => { r with layers_ := r.layers_ ++ [[]], mixers_ := r.mixers_ ++ [[]] }) q

/-- Layer 0 of `Predictor::AddMixers` (lines 309-370). -/
def AddMixers_layer0 (zero : V) (p : Predictor V) : Predictor V :=
  let input_size : Nat := p.GetNumModels
  let p0 : Predictor V := p.SetNumModels zero 0 input_size
  let model_params : List (List Nat) := [[0, 8], [0, 8], [1, 8], [1, 8], [2, 4], [3, 2]]
  let p1 : Predictor V := model_params.foldl (fun r _ => r.AddMixer 0 (Mixer.mk 0 input_size)) p0
  let model_params2 : List Nat := [0, 2, 3]
  let p2 : Predictor V := model_params2.foldl (fun r _ => r.AddMixer 0 (Mixer.mk 0 input_size)) p1
  -- zero_context_, line_break_, longest_match_
  let p3 : Predictor V := ((p2.AddMixer 0 (Mixer.mk 0 input_size)).AddMixer 0
    (Mixer.mk 0 input_size)).AddMixer 0 (Mixer.mk 0 input_size)
  -- interval1, interval2
  let p4 : Predictor V := (p3.AddMixer 0 (Mixer.mk 0 input_size)).AddMixer 0 (Mixer.mk 0 input_size)
  -- bit_context1, bit_context2, bit_context3
  ((p4.AddMixer 0 (Mixer.mk 0 input_size)).AddMixer 0
    (Mixer.mk 0 input_size)).AddMixer 0 (Mixer.mk 0 input_size)

/-- Layer 1 of `Predictor::AddMixers` (lines 372-396): eleven calls of `Add(1, ...)`. -/
def AddMixers_layer1 (zero : V) (p : Predictor V) : Predictor V :=
  let input_size : Nat := (p.mixers_.getD 0 []).length + p.auxiliary_.length
  let p0 : Predictor V := p.SetNumModels zero 1 input_size
  let m : Mixer := Mixer.mk 1 input_size
  let p1 : Predictor V := (((p0.AddMixer 1 m).AddMixer 1 m).AddMixer 1 m).AddMixer 1 m
  let p2 : Predictor V := (((p1.AddMixer 1 m).AddMixer 1 m).AddMixer 1 m).AddMixer 1 m
  ((p2.AddMixer 1 m).AddMixer 1 m).AddMixer 1 m

/-- Layer 2 of `Predictor::AddMixers` (lines 398-401). -/
def AddMixers_layer2 (zero : V) (p : Predictor V) : Predictor V :=
  let input_size : Nat := (p.mixers_.getD 1 []).length + p.auxiliary_.length
  let p0 : Predictor V := p.SetNumModels zero 2 input_size
  p0.AddMixer 2 (Mixer.mk 2 input_size)

/-- `Predictor::AddMixers`. -/
def AddMixers (zero : V) (vocab : List Bool) (p : Predictor V) : Predictor V :=
  AddMixers_layer2 zero (AddMixers_layer1 zero (AddMixers_layer0 zero (AddMixers_init zero vocab p)))

/-- State of the members before the constructor body runs; the context
manager starts a byte with `bit_context_ = 1`. -/
def empty : Predictor V :=
  { models_ := [], byte_models_ := [], auxiliary_ := [], layers_ := [], mixers_ := [],
    byte_mixer_ := { num_models := 0, vocab_size := 0, input := [] }, bit_context_ := 1 }

/-- `Predictor::Predictor(vocab)`; `nHP` and `nL` are the numbers of
sub-model predictions that PAQ8HP and PAQ8L publish. -/
def new (zero : V) (vocab : List Bool) (nHP nL : Nat) : Predictor V :=
  let p : Predictor V := empty
  let p := p.AddBracket
  let p := p.AddPAQ8HP nHP
  let p := p.AddPAQ8L nL
  let p := p.AddPPM
  let p := p.AddPPMD
  let p := p.AddDMC
  let p := p.AddByteRun
  let p := p.AddNonstationary
  let p := p.AddEnglish
  let p := p.AddSparse
  let p := p.AddDirect
  let p := p.AddRunMap
  let p := p.AddMatch
  let p := p.AddDoubleIndirect
  let p := p.AddInterval
  p.AddMixers zero vocab

/-- The bit models that `AddByteRun`, `AddNonstationary`, `AddEnglish`, `AddSparse`,
`AddDirect`, `AddRunMap`, `AddMatch`, `AddDoubleIndirect` and `AddInterval`
register, in registration order. -/
def laterModels : List Model :=
  (((((((((empty : Predictor Unit).AddByteRun).AddNonstationary).AddEnglish).AddSparse).AddDirect).AddRunMap).AddMatch).AddDoubleIndirect).AddInterval.models_

/-! ## `Predictor::Predict` -/

end Predictor

/-- Behaviour, during one call of the driver, of the components whose code is
outside predictor.cpp.  `Mix layer i inputs` is `mixers_[layer][i]->Mix()` as a
function of the input vector that mixer was handed at construction;
`BytePredict i j` is `byte_models_[i]->BytePredict()[j]`; `feq` is float `==`. -/
structure Components (V : Type) where
  zero : V
  one : V
  feq : V → V → Bool
  modelPredict : Nat → V
  byteModelPredict : Nat → V
  byteMixerPredict : V
  Mix : Nat → Nat → List V → V
  Squash : V → V
  sseProcess : V → V
  stretchClamp : V → V
  BytePredict : Nat → Nat → V

/-- The three `MixerInput` vectors while `Predict` runs, with the sequence of
`(layer, index)` pairs written so far. -/
structure Layers (V : Type) where
  inputs : List (List V)
  writes : List (Nat × Nat)

namespace Layers

variable {V : Type}

/-- Modelled from the spec: `MixerInput::SetStretchedInput(index, x)` (mixer/mixer-input
is not part of the listing); the value is stored as given: `inputs_[index] = x`. -/
def SetStretchedInput (s : Layers V) (layer index : Nat) (x : V) : Layers V :=
  { inputs := s.inputs.set layer ((s.inputs.getD layer []).set index x),
    writes := s.writes ++ [(layer, index)] }

/-- Modelled from the spec: `MixerInput::SetInput(index, p)` (mixer/mixer-input is
not part of the listing); the probability is clamped and stretched, then
stored: `inputs_[index] = stretch(clamp(p))`. -/
def SetInput (C : Components V) (s : Layers V) (layer index : Nat) (p : V) : Layers V :=
  { inputs := s.inputs.set layer ((s.inputs.getD layer []).set index (C.stretchClamp p)),
    writes := s.writes ++ [(layer, index)] }

end Layers

/-- Result of `Predict`: the returned float, the layer inputs it leaves behind,
and the `(layer, index)` pairs it wrote, in order. -/
structure PredictResult (V : Type) where
  value : V
  layers : List (List V)
  writes : List (Nat × Nat)

namespace Predictor

variable {V : Type}

/-- Value of `mixers_[layer][i]->Mix()`: the mixer reads the `Inputs()` vector it
was constructed with. -/
def MixAt (C : Components V) (p : Predictor V) (inputs : List (List V)) (layer i : Nat) : V :=
  C.Mix layer i (inputs.getD ((p.mixers_.getD layer []).getD i (Mixer.mk 0 0)).inputs [])

/-- Lines 406-415 of `Predictor::Predict`: fill layer 0. -/
def Predict_layer0 (C : Components V) (p : Predictor V) (s : Layers V) : Layers V :=
  let s1 : Layers V := (List.range p.models_.length).foldl
    (fun s i => s.SetInput C 0 i (C.modelPredict i)) s
  let s2 : Layers V := (List.range p.byte_models_.length).foldl
    (fun s i => s.SetInput C 0 (p.models_.length + i) (C.byteModelPredict i)) s1
  let byte_mixer_p : V := C.byteMixerPredict
  s2.SetInput C 0 (p.models_.length + p.byte_models_.length) byte_mixer_p

/-- Body of the loop `for (layer = 1; layer <= 2; ++layer)` (lines 417-423). -/
def Predict_layer (C : Components V) (p : Predictor V) (s : Layers V) (layer : Nat) : Layers V :=
  let s1 : Layers V := (List.range (p.mixers_.getD (layer - 1) []).length).foldl
    (fun s i => s.SetStretchedInput layer i (p.MixAt C s.inputs (layer - 1) i)) s
  (List.range p.auxiliary_.length).foldl
    (fun s i => s.SetStretchedInput layer ((p.mixers_.getD (layer - 1) []).length + i)
      ((s.inputs.getD 0 []).getD (p.auxiliary_.getD i 0) C.zero)) s1

/-- `Predictor::Predict`. -/
def Predict (C : Components V) (p : Predictor V) : PredictResult V :=
  let s0 : Layers V := p.Predict_layer0 C { inputs := p.layers_, writes := [] }
  let byte_mixer_p : V := C.byteMixerPredict
  let s : Layers V := [1, 2].foldl (fun s layer => p.Predict_layer C s layer) s0
  let pr : V := C.Squash (p.MixAt C s.inputs 2 0)
  let pr : V := C.sseProcess pr
  { value := if C.feq byte_mixer_p C.zero || C.feq byte_mixer_p C.one then byte_mixer_p else pr,
    layers := s.inputs,
    writes := s.writes }

/-- The predictor after `Predict`: only the layer inputs have changed. -/
def afterPredict (C : Components V) (p : Predictor V) : Predictor V :=
  { p with layers_ := (p.Predict C).layers }

/-! ## `Predictor::Perceive` -/

end Predictor

/-- Calls that `Predictor::Perceive` makes on its components, in program order.
`ByteMixerSetInput i j` is `byte_mixer_->SetInput(j, p[j])` with `p` the
`BytePredict()` of byte model `i`; `ResetBitContext` is `manager_.bit_context_ = 1`. -/
inductive Event where
  | ModelPerceive (i : Nat) (bit : Bool)
  | ByteModelPerceive (i : Nat) (bit : Bool)
  | ByteMixerPerceive (bit : Bool)
  | MixerPerceive (layer i : Nat) (bit : Bool)
  | SsePerceive (bit : Bool)
  | ManagerPerceive (bit : Bool)
  | ModelByteUpdate (i : Nat)
  | ByteModelByteUpdate (i : Nat)
  | ByteMixerSetInput (i j : Nat)
  | ByteMixerByteUpdate
  | ResetBitContext
  deriving DecidableEq, Repr

/-- Position of an event's phase in the schedule of `Perceive`. -/
def Event.phase : Event → Nat
  | .ModelPerceive _ _ => 0
  | .ByteModelPerceive _ _ => 1
  | .ByteMixerPerceive _ => 2
  | .MixerPerceive _ _ _ => 3
  | .SsePerceive _ => 4
  | .ManagerPerceive _ => 5
  | .ModelByteUpdate _ => 6
  | .ByteModelByteUpdate _ => 7
  | .ByteMixerSetInput _ _ => 8
  | .ByteMixerByteUpdate => 9
  | .ResetBitContext => 10

/-- Modelled from the spec: `ContextManager::Perceive` (context-manager is not part
of the listing), restricted to the BitAccumulator: the bit is appended,
`bit_context_ = 2 * bit_context_ + bit`.  The reset at the byte boundary is
the driver's own assignment at line 464. -/
def ContextManager_Perceive (bit_context : Nat) (bit : Bool) : Nat :=
  2 * bit_context + bit.toNat

/-- Modelled from the spec: `ByteMixer::SetInput(index, v)` (mixer/byte-mixer is not
part of the listing), as a plain store of `v` at input slot `index`. -/
def ByteMixer.SetInput {V : Type} (b : ByteMixer V) (index : Nat) (v : V) : ByteMixer V :=
  { b with input := b.input.set index v }

/-- Driver state while `Perceive` runs, with the calls made so far. -/
structure PerceiveState (V : Type) where
  byte_mixer_ : ByteMixer V
  bit_context_ : Nat
  trace : List Event

/-- Result of `Perceive`: the predictor afterwards and the calls made, in order. -/
structure PerceiveResult (V : Type) where
  state : Predictor V
  trace : List Event

namespace Predictor

variable {V : Type}

/-- Lines 432-444 of `Predictor::Perceive`: every component perceives the bit. -/
def Perceive_components (p : Predictor V) (bit : Bool) (t : List Event) : List Event :=
  let t1 : List Event := (List.range p.models_.length).foldl
    (fun t i => t ++ [Event.ModelPerceive i bit]) t
  let t2 : List Event := (List.range p.byte_models_.length).foldl
    (fun t i => t ++ [Event.ByteModelPerceive i bit]) t1
  let t3 : List Event := t2 ++ [Event.ByteMixerPerceive bit]
  let t4 : List Event := (List.range p.mixers_.length).foldl
    (fun t i => (List.range (p.mixers_.getD i []).length).foldl
      (fun t k => t ++ [Event.MixerPerceive i k bit]) t) t3
  t4 ++ [Event.SsePerceive bit]

/-- Lines 451-464 of `Predictor::Perceive`: the body of `if (byte_update)`. -/
def Perceive_byteUpdate (C : Components V) (p : Predictor V) (s : PerceiveState V) :
    PerceiveState V :=
  let t1 : List Event := (List.range p.models_.length).foldl
    (fun t i => t ++ [Event.ModelByteUpdate i]) s.trace
  let t2 : List Event := (List.range p.byte_models_.length).foldl
    (fun t i => t ++ [Event.ByteModelByteUpdate i]) t1
  let s1 : PerceiveState V := { s with trace := t2 }
  let s2 : PerceiveState V := (List.range p.byte_models_.length).foldl
    (fun s i => (List.range 256).foldl
      (fun s j => { s with byte_mixer_ := s.byte_mixer_.SetInput j (C.BytePredict i j),
                           trace := s.trace ++ [Event.ByteMixerSetInput i j] }) s) s1
  { s2 with bit_context_ := 1,
            trace := s2.trace ++ [Event.ByteMixerByteUpdate, Event.ResetBitContext] }

/-- `Predictor::Perceive`. -/
def Perceive (C : Components V) (p : Predictor V) (bit : Bool) : PerceiveResult V :=
  let t : List Event := p.Perceive_components bit []
  let byte_update : Bool := decide (p.bit_context_ ≥ 128)
  let s : PerceiveState V :=
    { byte_mixer_ := p.byte_mixer_,
      bit_context_ := ContextManager_Perceive p.bit_context_ bit,
      trace := t ++ [Event.ManagerPerceive bit] }
  let s : PerceiveState V := if byte_update then p.Perceive_byteUpdate C s else s
  { state := { p with byte_mixer_ := s.byte_mixer_, bit_context_ := s.bit_context_ },
    trace := s.trace }

/-- Feed a bit sequence to the predictor; every step comes with the behaviour
of the components at that step.  `Predict` before each `Perceive` only
rewrites the layer inputs. -/
def run (p : Predictor V) (steps : List (Components V × Bool)) : Predictor V :=
  steps.foldl (fun p cb => ((p.afterPredict cb.1).Perceive cb.1 cb.2).state) p

/-- Layer sizes and mixer wiring that `Predict` relies on. -/
structure WellSized (p : Predictor V) : Prop where
  layers3 : p.layers_.length = 3
  mixers3 : p.mixers_.length = 3
  size0 : (p.layers_.getD 0 []).length = p.GetNumModels
  size1 : (p.layers_.getD 1 []).length = (p.mixers_.getD 0 []).length + p.auxiliary_.length
  size2 : (p.layers_.getD 2 []).length = (p.mixers_.getD 1 []).length + p.auxiliary_.length
  aux_lt : ∀ a ∈ p.auxiliary_, a < p.GetNumModels
  wired : ∀ l, l < 3 → ∀ m ∈ p.mixers_.getD l [],
    m.inputs = l ∧ m.input_size = (p.layers_.getD l []).length
  top : (p.mixers_.getD 2 []).length = 1

/-- The stores of the feeding loop (lines 457-462) on the ByteMixer's input
vector alone, for `B` byte models. -/
def feedInput (C : Components V) (B : Nat) (input : List V) : List V :=
  (List.range B).foldl
    (fun m i => (List.range 256).foldl (fun m j => m.set j (C.BytePredict i j)) m) input

/-- The calls of the `if (byte_update)` block, in the order of the listing. -/
def byteUpdateEvents (p : Predictor V) : List Event :=
  (List.range p.models_.length).map Event.ModelByteUpdate ++
  (List.range p.byte_models_.length).map Event.ByteModelByteUpdate ++
  (List.range p.byte_models_.length).flatMap
    (fun i => (List.range 256).map (fun j => Event.ByteMixerSetInput i j)) ++
  [Event.ByteMixerByteUpdate, Event.ResetBitContext]

/-- The calls made before the byte-boundary test, in the order of the listing. -/
def perceiveEvents (p : Predictor V) (bit : Bool) : List Event :=
  (List.range p.models_.length).map (fun i => Event.ModelPerceive i bit) ++
  (List.range p.byte_models_.length).map (fun i => Event.ByteModelPerceive i bit) ++
  [Event.ByteMixerPerceive bit] ++
  (List.range p.mixers_.length).flatMap
    (fun l => (List.range (p.mixers_.getD l []).length).map
      (fun k => Event.MixerPerceive l k bit)) ++
  [Event.SsePerceive bit, Event.ManagerPerceive bit]

/-- The bit models the spec calls BlackBoxModels. -/
def isBlackBoxModel : Model → Bool
  | .PAQ8HP => true
  | .PAQ8L => true
  | .DMC => true
  | _ => false

/-- The byte models the spec calls BlackBoxModels (PPM and PPMD). -/
def isBlackBoxByteModel : ByteModel → Bool
  | .PPM _ => true
  | .PPMD => true

/-- The auxiliary slots in the spec's words, not the code's: the layer-0 slot of
every BlackBoxModel (slot `s` for bit model `s`, slot `M + j` for byte model
`j`) and the ByteMixer's slot `M + B`. -/
def specAuxiliarySlot (p : Predictor V) (s : Nat) : Bool :=
  if s < p.models_.length then
    (p.models_[s]?.map isBlackBoxModel).getD false
  else if s < p.models_.length + p.byte_models_.length then
    (p.byte_models_[s - p.models_.length]?.map isBlackBoxByteModel).getD false
  else s == p.models_.length + p.byte_models_.length

/-- Contents of layer 0 after lines 406-415, slot by slot. -/
def layer0Values (C : Components V) (p : Predictor V) : List V :=
  (List.range p.models_.length).map (fun i => C.stretchClamp (C.modelPredict i)) ++
  (List.range p.byte_models_.length).map (fun i => C.stretchClamp (C.byteModelPredict i)) ++
  [C.stretchClamp C.byteMixerPredict]

/-- Contents of layer `layer` after one round of lines 417-423, slot by slot:
the outputs of the mixers of the layer below (which read `below`), then the
auxiliary slots of layer 0 (`first`). -/
def upperLayerValues (C : Components V) (p : Predictor V) (layer : Nat) (below first : List V) :
    List V :=
  (List.range (p.mixers_.getD (layer - 1) []).length).map (fun i => C.Mix (layer - 1) i below) ++
  (List.range p.auxiliary_.length).map (fun i => first.getD (p.auxiliary_.getD i 0) C.zero)

/-- The `(layer, index)` pairs of one round of lines 417-423. -/
def upperLayerWrites (p : Predictor V) (layer : Nat) : List (Nat × Nat) :=
  (List.range (p.mixers_.getD (layer - 1) []).length).map (fun i => (layer, i)) ++
  (List.range p.auxiliary_.length).map
    (fun i => (layer, (p.mixers_.getD (layer - 1) []).length + i))

/-- The `(layer, index)` pairs of lines 406-415. -/
def layer0Writes (p : Predictor V) : List (Nat × Nat) :=
  (List.range p.models_.length).map (fun i => (0, i)) ++
  (List.range p.byte_models_.length).map (fun i => (0, p.models_.length + i)) ++
  [(0, p.models_.length + p.byte_models_.length)]

end Predictor

/-- Components over the rationals used to run the model on examples: every
model predicts 1/2, byte model `i` predicts 1/(i+3), the ByteMixer 1/3;
byte model 0 has the uniform byte distribution, the others put all mass on
the byte 65. -/
def exampleComponents : Components Rat :=
  { zero := 0, one := 1, feq := fun a b => decide (a = b),
    modelPredict := fun _ => 1 / 2,
    byteModelPredict := fun i => 1 / ((i : Rat) + 3),
    byteMixerPredict := 1 / 3,
    Mix := fun _ _ xs => xs.sum,
    Squash := fun x => x,
    sseProcess := fun x => x,
    stretchClamp := fun x => x,
    BytePredict := fun i j => if i = 0 then 1 / 256 else if j = 65 then 1 else 0 }

/-- The predictor built for a vocabulary that admits every byte, with two
PAQ8HP and three PAQ8L sub-model predictions. -/
def examplePredictor : Predictor Rat :=
  Predictor.new 0 (List.replicate 256 true) 2 3

/-! ## Lemmas on loops that store into a vector -/

theorem foldl_set_segment {α : Type} (f : Nat → α) (ix : Nat → Nat) (pre : List α)
    (hix : ∀ i, ix i = pre.length + i) :
    ∀ (n : Nat) (rest : List α), n ≤ rest.length →
      (List.range n).foldl (fun m i => m.set (ix i) (f i)) (pre ++ rest)
        = pre ++ (List.range n).map f ++ rest.drop n := by
  intro n
  induction n with
  | zero => intro rest _; simp
  | succ n ih =>
    intro rest hn
    have hlt : n < rest.length := by omega
    rw [List.range_succ, List.foldl_append, ih rest (by omega)]
    simp only [List.foldl_cons, List.foldl_nil, List.map_append, List.map_cons, List.map_nil]
    rw [hix n, List.set_append]
    have hlen : (pre ++ List.map f (List.range n)).length = pre.length + n := by simp
    simp only [hlen, Nat.lt_irrefl, if_false, Nat.sub_self]
    rw [List.drop_eq_getElem_cons hlt, List.set_cons_zero]
    simp only [List.append_assoc, List.singleton_append]

theorem set_getD_self {α : Type} (ls : List (List α)) (k : Nat) (hk : k < ls.length) :
    ls.set k (ls.getD k []) = ls := by
  apply List.ext_getElem?
  intro j
  by_cases hj : k = j
  · subst hj; simp [List.getElem?_set, hk, List.getD_eq_getElem?_getD]
  · simp [List.getElem?_set, hj]

theorem getD_set_self {α : Type} (ls : List (List α)) (k : Nat) (x : List α)
    (hk : k < ls.length) : (ls.set k x).getD k [] = x := by
  simp [List.getD_eq_getElem?_getD, List.getElem?_set, hk]

theorem getD_set_other {α : Type} (ls : List (List α)) (k a : Nat) (x : List α)
    (ha : a ≠ k) : (ls.set k x).getD a [] = ls.getD a [] := by
  simp [List.getD_eq_getElem?_getD, List.getElem?_set, Ne.symm ha]

namespace Layers

variable {V : Type}

theorem SetInput_eq (C : Components V) (s : Layers V) (layer index : Nat) (p : V) :
    s.SetInput C layer index p = s.SetStretchedInput layer index (C.stretchClamp p) := rfl

theorem foldl_SetStretchedInput (k : Nat) (ix : Nat → Nat) (val : Layers V → Nat → V)
    (g : Nat → V) (s : Layers V) (hk : k < s.inputs.length) :
    ∀ n, (∀ (t : Layers V) i, i < n →
        (∀ a, a ≠ k → t.inputs.getD a [] = s.inputs.getD a []) → val t i = g i) →
      (List.range n).foldl (fun t i => t.SetStretchedInput k (ix i) (val t i)) s
        = Layers.mk
            (s.inputs.set k
              ((List.range n).foldl (fun m i => m.set (ix i) (g i)) (s.inputs.getD k [])))
            (s.writes ++ (List.range n).map (fun i => (k, ix i))) := by
  intro n
  induction n with
  | zero =>
    intro _
    cases s with
    | mk inputs writes =>
      have h := set_getD_self inputs k hk
      simp only [List.range_zero, List.foldl_nil, List.map_nil, List.append_nil]
      rw [h]
  | succ n ih =>
    intro hval
    rw [List.range_succ, List.foldl_append, ih (fun t i hi => hval t i (by omega))]
    simp only [List.foldl_cons, List.foldl_nil, SetStretchedInput, List.map_append,
      List.map_cons, List.map_nil, List.append_assoc, List.foldl_append]
    rw [hval _ n (by omega) (fun a ha => getD_set_other _ _ _ _ ha)]
    rw [getD_set_self _ _ _ hk, List.set_set]

end Layers

namespace Layers

variable {V : Type}

theorem foldl_write_segment (k : Nat) (ix : Nat → Nat) (val : Layers V → Nat → V)
    (g : Nat → V) (s : Layers V) (hk : k < s.inputs.length) (pre rest : List V)
    (hs : s.inputs.getD k [] = pre ++ rest) (hix : ∀ i, ix i = pre.length + i)
    (n : Nat) (hn : n ≤ rest.length)
    (hval : ∀ (t : Layers V) i, i < n →
        (∀ a, a ≠ k → t.inputs.getD a [] = s.inputs.getD a []) → val t i = g i) :
    (List.range n).foldl (fun t i => t.SetStretchedInput k (ix i) (val t i)) s
      = Layers.mk (s.inputs.set k (pre ++ (List.range n).map g ++ rest.drop n))
          (s.writes ++ (List.range n).map (fun i => (k, ix i))) := by
  rw [foldl_SetStretchedInput k ix val g s hk n hval, hs,
    foldl_set_segment g ix pre hix n rest hn]

end Layers

namespace Predictor

variable {V : Type}

theorem Predict_layer0_eq (C : Components V) (p : Predictor V) (l0 l1 l2 : List V)
    (w : List (Nat × Nat)) (h0 : l0.length = p.GetNumModels) :
    p.Predict_layer0 C (Layers.mk [l0, l1, l2] w)
      = Layers.mk [p.layer0Values C, l1, l2] (w ++ p.layer0Writes) := by
  unfold Predict_layer0
  simp only [Layers.SetInput_eq]
  unfold GetNumModels at h0
  have e1 := Layers.foldl_write_segment 0 (fun i => i)
    (fun _ i => C.stretchClamp (C.modelPredict i))
    (fun i => C.stretchClamp (C.modelPredict i)) (Layers.mk [l0, l1, l2] w)
    (by simp) [] l0 (by simp) (by simp) p.models_.length (by omega) (fun _ _ _ _ => rfl)
  simp only [List.set_cons_zero, List.nil_append] at e1
  rw [e1]
  have e2 := Layers.foldl_write_segment 0 (fun i => p.models_.length + i)
    (fun _ i => C.stretchClamp (C.byteModelPredict i))
    (fun i => C.stretchClamp (C.byteModelPredict i))
    (Layers.mk [(List.range p.models_.length).map
      (fun i => C.stretchClamp (C.modelPredict i)) ++ l0.drop p.models_.length, l1, l2]
      (w ++ (List.range p.models_.length).map (fun i => (0, i))))
    (by simp) ((List.range p.models_.length).map (fun i => C.stretchClamp (C.modelPredict i)))
    (l0.drop p.models_.length) (by simp) (by simp) p.byte_models_.length
    (by simp; omega) (fun _ _ _ _ => rfl)
  simp only [List.set_cons_zero] at e2
  rw [e2]
  simp only [Layers.SetStretchedInput, List.set_cons_zero, List.getD_cons_zero, layer0Values,
    layer0Writes, List.append_assoc]
  have hd : ∃ x, List.drop p.byte_models_.length (List.drop p.models_.length l0) = [x] := by
    have hl : (List.drop p.byte_models_.length (List.drop p.models_.length l0)).length = 1 := by
      simp; omega
    match hq : List.drop p.byte_models_.length (List.drop p.models_.length l0), hl with
    | [x], _ => exact ⟨x, rfl⟩
  obtain ⟨x, hx⟩ := hd
  rw [hx]
  congr 1
  congr 1
  rw [← List.append_assoc, List.set_append]
  simp

end Predictor

namespace Predictor

variable {V : Type}

theorem Predict_layer_eq (C : Components V) (p : Predictor V) (ls : List (List V))
    (w : List (Nat × Nat)) (L : Nat) (hL0 : L ≠ 0) (hL : L < ls.length)
    (hsize : (ls.getD L []).length = (p.mixers_.getD (L - 1) []).length + p.auxiliary_.length)
    (hw : ∀ m ∈ p.mixers_.getD (L - 1) [], m.inputs = L - 1) :
    p.Predict_layer C (Layers.mk ls w) L
      = Layers.mk (ls.set L (p.upperLayerValues C L (ls.getD (L - 1) []) (ls.getD 0 [])))
          (w ++ p.upperLayerWrites L) := by
  unfold Predict_layer
  have e1 := Layers.foldl_write_segment L (fun i => i)
    (fun t i => p.MixAt C t.inputs (L - 1) i)
    (fun i => C.Mix (L - 1) i (ls.getD (L - 1) [])) (Layers.mk ls w)
    hL [] (ls.getD L []) (by simp) (by simp) (p.mixers_.getD (L - 1) []).length (by omega)
    (by
      intro t i hi ht
      have hm : ((p.mixers_.getD (L - 1) []).getD i (Mixer.mk 0 0)).inputs = L - 1 := by
        apply hw
        rw [List.getD_eq_getElem _ _ hi]
        exact List.getElem_mem hi
      simp only [MixAt, hm]
      rw [ht (L - 1) (by omega)])
  simp only [List.nil_append] at e1
  rw [e1]
  have e2 := Layers.foldl_write_segment L (fun i => (p.mixers_.getD (L - 1) []).length + i)
    (fun t i => (t.inputs.getD 0 []).getD (p.auxiliary_.getD i 0) C.zero)
    (fun i => (ls.getD 0 []).getD (p.auxiliary_.getD i 0) C.zero)
    (Layers.mk (ls.set L ((List.range (p.mixers_.getD (L - 1) []).length).map
        (fun i => C.Mix (L - 1) i (ls.getD (L - 1) []))
        ++ (ls.getD L []).drop (p.mixers_.getD (L - 1) []).length))
      (w ++ (List.range (p.mixers_.getD (L - 1) []).length).map (fun i => (L, i))))
    (by simpa using hL)
    ((List.range (p.mixers_.getD (L - 1) []).length).map
        (fun i => C.Mix (L - 1) i (ls.getD (L - 1) [])))
    ((ls.getD L []).drop (p.mixers_.getD (L - 1) []).length)
    (getD_set_self _ _ _ hL) (by simp) p.auxiliary_.length (by rw [List.length_drop]; omega)
    (by
      intro t i _ ht
      simp only
      rw [ht 0 (Ne.symm hL0), getD_set_other _ _ _ _ (Ne.symm hL0)])
  rw [e2]
  simp only [List.set_set, upperLayerValues, upperLayerWrites, List.append_assoc]
  have hnil : List.drop p.auxiliary_.length
      (List.drop (p.mixers_.getD (L - 1) []).length (ls.getD L [])) = [] := by
    apply List.drop_eq_nil_of_le
    rw [List.length_drop]; omega
  rw [hnil, List.append_nil]

/-- Under `WellSized`, `Predict` leaves in the three layers exactly the values
listed by `layer0Values` and `upperLayerValues`, whatever they held on entry. -/
theorem Predict_layers_writes (C : Components V) (p : Predictor V) (h : p.WellSized) :
    (p.Predict C).layers =
      [p.layer0Values C,
       p.upperLayerValues C 1 (p.layer0Values C) (p.layer0Values C),
       p.upperLayerValues C 2
         (p.upperLayerValues C 1 (p.layer0Values C) (p.layer0Values C)) (p.layer0Values C)]
    ∧ (p.Predict C).writes = p.layer0Writes ++ (p.upperLayerWrites 1 ++ p.upperLayerWrites 2) := by
  obtain ⟨l0, l1, l2, hl⟩ : ∃ l0 l1 l2, p.layers_ = [l0, l1, l2] := by
    have h3 := h.layers3
    match hq : p.layers_, h3 with
    | [a, b, c], _ => exact ⟨a, b, c, rfl⟩
  have hs0 := h.size0
  have hs1 := h.size1
  have hs2 := h.size2
  rw [hl] at hs0 hs1 hs2
  simp only [List.getD_cons_zero, List.getD_cons_succ] at hs0 hs1 hs2
  have hw1 : ∀ m ∈ p.mixers_.getD (1 - 1) [], m.inputs = 1 - 1 :=
    fun m hm => (h.wired 0 (by omega) m hm).1
  have hw2 : ∀ m ∈ p.mixers_.getD (2 - 1) [], m.inputs = 2 - 1 :=
    fun m hm => (h.wired 1 (by omega) m hm).1
  have e0 := Predict_layer0_eq C p l0 l1 l2 [] hs0
  have e1 := Predict_layer_eq C p [p.layer0Values C, l1, l2] ([] ++ p.layer0Writes) 1
    (by omega) (by simp) (by simpa using hs1) hw1
  have e2 := Predict_layer_eq C p
    [p.layer0Values C, p.upperLayerValues C 1 (p.layer0Values C) (p.layer0Values C), l2]
    ([] ++ p.layer0Writes ++ p.upperLayerWrites 1) 2
    (by omega) (by simp) (by simpa using hs2) hw2
  simp only [List.getD_cons_zero, List.getD_cons_succ, List.set_cons_zero, List.set_cons_succ,
    Nat.sub_self] at e1 e2
  simp only [Predict, hl, List.foldl_cons, List.foldl_nil, e0, e1, e2]
  simp

end Predictor

/-! ## The constructor -/

namespace Predictor

variable {V : Type}

theorem foldl_Add_Facade (n : Nat) (p : Predictor V) :
    (List.range n).foldl (fun p i => p.Add (Model.Facade i)) p
      = { p with models_ := p.models_ ++ (List.range n).map Model.Facade } := by
  induction n with
  | zero => simp
  | succ n ih =>
    rw [List.range_succ, List.foldl_append, ih]
    simp [Add]

set_option maxRecDepth 100000 in
theorem laterModels_length : laterModels.length = 108 := by decide

set_option maxRecDepth 100000 in
/-- The bit models registered after the two PAQ8 predictors: DMC, then
`laterModels`; nothing else changes. -/
theorem models_after_PAQ8 (p : Predictor V) :
    (((((((((p.AddDMC).AddByteRun).AddNonstationary).AddEnglish).AddSparse).AddDirect).AddRunMap).AddMatch).AddDoubleIndirect).AddInterval
      = { p with models_ := p.models_ ++ Model.DMC :: laterModels } := by
  simp only [AddDMC, AddByteRun, AddNonstationary, AddEnglish, AddSparse, AddDirect, AddRunMap,
      AddMatch, AddDoubleIndirect, AddInterval, Add, List.foldl_cons, List.foldl_nil,
      List.append_assoc, List.singleton_append, List.cons_append, List.nil_append]
  simp
  rfl

end Predictor

namespace Predictor

variable {V : Type}

theorem AddPAQ8HP_eq (n : Nat) (p : Predictor V) :
    p.AddPAQ8HP n = { p with
      models_ := p.models_ ++ Model.PAQ8HP :: (List.range n).map Model.Facade,
      auxiliary_ := p.auxiliary_ ++ [p.models_.length] } := by
  simp only [AddPAQ8HP, foldl_Add_Facade]
  simp [Add]

theorem AddPAQ8L_eq (n : Nat) (p : Predictor V) :
    p.AddPAQ8L n = { p with
      models_ := p.models_ ++ Model.PAQ8L :: (List.range n).map Model.Facade,
      auxiliary_ := p.auxiliary_ ++ [p.models_.length] } := by
  simp only [AddPAQ8L, foldl_Add_Facade]
  simp [Add]

/-- The members when `AddMixers` is entered. -/
theorem beforeMixers_eq (nHP nL : Nat) :
    ((((((((((((((((empty : Predictor V).AddBracket).AddPAQ8HP nHP).AddPAQ8L nL).AddPPM).AddPPMD).AddDMC).AddByteRun).AddNonstationary).AddEnglish).AddSparse).AddDirect).AddRunMap).AddMatch).AddDoubleIndirect).AddInterval)
      = { models_ := [Model.Bracket, Model.Direct, Model.Indirect, Model.PAQ8HP] ++
            (List.range nHP).map Model.Facade ++ [Model.PAQ8L] ++
            (List.range nL).map Model.Facade ++ Model.DMC :: laterModels,
          byte_models_ := [ByteModel.PPM 7, ByteModel.PPM 5, ByteModel.PPMD],
          auxiliary_ := [3, 4 + nHP],
          layers_ := [], mixers_ := [],
          byte_mixer_ := { num_models := 0, vocab_size := 0, input := [] },
          bit_context_ := 1 } := by
  rw [models_after_PAQ8]
  simp only [AddPAQ8HP_eq, AddPAQ8L_eq]
  simp only [AddBracket, AddPPM, AddPPMD, Add, AddByteModel, empty]
  simp
  omega

theorem AddMixers_eq (zero : V) (vocab : List Bool) (p : Predictor V)
    (hl : p.layers_ = []) (hm : p.mixers_ = []) :
    (AddMixers zero vocab p).models_ = p.models_ ∧
    (AddMixers zero vocab p).byte_models_ = p.byte_models_ ∧
    (AddMixers zero vocab p).auxiliary_
      = p.auxiliary_ ++ [p.models_.length + p.byte_models_.length] ∧
    (AddMixers zero vocab p).layers_
      = [List.replicate (p.models_.length + p.byte_models_.length + 1) zero,
         List.replicate (17 + (p.auxiliary_.length + 1)) zero,
         List.replicate (11 + (p.auxiliary_.length + 1)) zero] ∧
    (AddMixers zero vocab p).mixers_
      = [List.replicate 17 (Mixer.mk 0 (p.models_.length + p.byte_models_.length + 1)),
         List.replicate 11 (Mixer.mk 1 (17 + (p.auxiliary_.length + 1))),
         [Mixer.mk 2 (11 + (p.auxiliary_.length + 1))]] ∧
    (AddMixers zero vocab p).byte_mixer_.input
      = List.replicate (256 * p.byte_models_.length) zero ∧
    (AddMixers zero vocab p).byte_mixer_.num_models = p.byte_models_.length ∧
    (AddMixers zero vocab p).bit_context_ = p.bit_context_ := by
  simp [AddMixers, AddMixers_init, AddMixers_layer0, AddMixers_layer1, AddMixers_layer2,
    AddMixer, SetNumModels, show List.range 3 = [0, 1, 2] from rfl, hl, hm, GetNumModels,
    List.replicate]

/-- Every member of the constructed predictor, spelled out. -/
theorem new_fields (zero : V) (vocab : List Bool) (nHP nL : Nat) :
    (new zero vocab nHP nL).models_
      = [Model.Bracket, Model.Direct, Model.Indirect, Model.PAQ8HP] ++
          (List.range nHP).map Model.Facade ++ [Model.PAQ8L] ++
          (List.range nL).map Model.Facade ++ Model.DMC :: laterModels ∧
    (new zero vocab nHP nL).models_.length = 114 + nHP + nL ∧
    (new zero vocab nHP nL).byte_models_
      = [ByteModel.PPM 7, ByteModel.PPM 5, ByteModel.PPMD] ∧
    (new zero vocab nHP nL).auxiliary_ = [3, 4 + nHP, 117 + nHP + nL] ∧
    (new zero vocab nHP nL).layers_
      = [List.replicate (118 + nHP + nL) zero, List.replicate 20 zero,
         List.replicate 14 zero] ∧
    (new zero vocab nHP nL).mixers_
      = [List.replicate 17 (Mixer.mk 0 (118 + nHP + nL)),
         List.replicate 11 (Mixer.mk 1 20), [Mixer.mk 2 14]] ∧
    (new zero vocab nHP nL).byte_mixer_.input = List.replicate 768 zero ∧
    (new zero vocab nHP nL).bit_context_ = 1 := by
  have hn : new zero vocab nHP nL = AddMixers zero vocab
    ((((((((((((((((empty : Predictor V).AddBracket).AddPAQ8HP nHP).AddPAQ8L nL).AddPPM).AddPPMD).AddDMC).AddByteRun).AddNonstationary).AddEnglish).AddSparse).AddDirect).AddRunMap).AddMatch).AddDoubleIndirect).AddInterval) := rfl
  rw [hn, beforeMixers_eq]
  have hlen := laterModels_length
  generalize laterModels = tail at hlen ⊢
  obtain ⟨h1, h2, h3, h4, h5, h6, _, h8⟩ := AddMixers_eq zero vocab
    ({ models_ := [Model.Bracket, Model.Direct, Model.Indirect, Model.PAQ8HP] ++
            (List.range nHP).map Model.Facade ++ [Model.PAQ8L] ++
            (List.range nL).map Model.Facade ++ Model.DMC :: tail,
          byte_models_ := [ByteModel.PPM 7, ByteModel.PPM 5, ByteModel.PPMD],
          auxiliary_ := [3, 4 + nHP],
          layers_ := [], mixers_ := [],
          byte_mixer_ := { num_models := 0, vocab_size := 0, input := [] },
          bit_context_ := 1 } : Predictor V) rfl rfl
  have hM : ([Model.Bracket, Model.Direct, Model.Indirect, Model.PAQ8HP] ++
            (List.range nHP).map Model.Facade ++ [Model.PAQ8L] ++
            (List.range nL).map Model.Facade ++ Model.DMC :: tail).length = 114 + nHP + nL := by
    simp only [List.length_append, List.length_cons, List.length_map, List.length_range,
      List.length_nil, hlen]
    omega
  rw [h1, h2, h3, h4, h5, h6, h8]
  simp only [hM, List.length_cons, List.length_nil]
  have e1 : 114 + nHP + nL + (0 + 1 + 1 + 1) = 117 + nHP + nL := by omega
  have e2 : 117 + nHP + nL + 1 = 118 + nHP + nL := by omega
  simp [e1, e2]

/-- The constructed predictor has the sizes and wiring that `Predict` relies on. -/
theorem new_WellSized (zero : V) (vocab : List Bool) (nHP nL : Nat) :
    (new zero vocab nHP nL).WellSized := by
  obtain ⟨_, hM, hB, hA, hL, hX, _, _⟩ := new_fields zero vocab nHP nL
  refine ⟨?_, ?_, ?_, ?_, ?_, ?_, ?_, ?_⟩
  · rw [hL]; rfl
  · rw [hX]; rfl
  · rw [hL]; simp [GetNumModels, hM, hB]; omega
  · rw [hL, hX, hA]; simp
  · rw [hL, hX, hA]; simp
  · rw [hA]; intro a ha; simp at ha; simp [GetNumModels, hM, hB]; omega
  · intro l hl m hm
    rw [hX] at hm; rw [hL]
    have hcases : l = 0 ∨ l = 1 ∨ l = 2 := by omega
    rcases hcases with h | h | h <;> subst h <;> simp at hm <;> simp [hm]
  · rw [hX]; rfl

end Predictor

/-! ## Bucket tables -/

theorem fillTable_eq (f : Int → Int) :
    fillTable f = (List.range 256).map (fun i => f (Int.ofNat i)) := by
  have h := foldl_set_segment (fun i => f (Int.ofNat i)) (fun i => i) []
    (fun i => (Nat.zero_add i).symm) 256 (List.replicate 256 0)
    (by rw [List.length_replicate])
  simp only [List.nil_append] at h
  unfold fillTable
  rw [h, List.drop_eq_nil_of_le (by rw [List.length_replicate]), List.append_nil]

theorem fillTable_length (f : Int → Int) : (fillTable f).length = 256 := by
  rw [fillTable_eq, List.length_map, List.length_range]

theorem fillTable_getD (f : Int → Int) (i : Nat) (hi : i < 256) :
    (fillTable f).getD i 0 = f (Int.ofNat i) := by
  rw [fillTable_eq, List.getD_eq_getElem?_getD, List.getElem?_map, List.getElem?_range hi]
  rfl

theorem boolToInt_nonneg (b : Bool) : 0 ≤ boolToInt b := by
  cases b <;> simp [boolToInt]

theorem boolToInt_le_one (b : Bool) : boolToInt b ≤ 1 := by
  cases b <;> simp [boolToInt]

theorem boolToInt_lt_anti (i j c : Int) (h : i ≤ j) :
    boolToInt (decide (j < c)) ≤ boolToInt (decide (i < c)) := by
  unfold boolToInt
  by_cases hj : j < c
  · have hi : i < c := by omega
    simp [hj, hi]
  · by_cases hi : i < c <;> simp [hj, hi]

theorem AddInterval_bucket_range (i : Int) :
    0 ≤ AddInterval_bucket i ∧ AddInterval_bucket i ≤ 15 := by
  unfold AddInterval_bucket
  have a1 := boolToInt_nonneg (decide (i < 41)); have b1 := boolToInt_le_one (decide (i < 41))
  have a2 := boolToInt_nonneg (decide (i < 92)); have b2 := boolToInt_le_one (decide (i < 92))
  have a3 := boolToInt_nonneg (decide (i < 124)); have b3 := boolToInt_le_one (decide (i < 124))
  have a4 := boolToInt_nonneg (decide (i < 58)); have b4 := boolToInt_le_one (decide (i < 58))
  have a5 := boolToInt_nonneg (decide (i < 11)); have b5 := boolToInt_le_one (decide (i < 11))
  have a6 := boolToInt_nonneg (decide (i < 46)); have b6 := boolToInt_le_one (decide (i < 46))
  have a7 := boolToInt_nonneg (decide (i < 36)); have b7 := boolToInt_le_one (decide (i < 36))
  have a8 := boolToInt_nonneg (decide (i < 47)); have b8 := boolToInt_le_one (decide (i < 47))
  have a9 := boolToInt_nonneg (decide (i < 64)); have b9 := boolToInt_le_one (decide (i < 64))
  have a10 := boolToInt_nonneg (decide (i < 4)); have b10 := boolToInt_le_one (decide (i < 4))
  have a11 := boolToInt_nonneg (decide (i < 61)); have b11 := boolToInt_le_one (decide (i < 61))
  have a12 := boolToInt_nonneg (decide (i < 97)); have b12 := boolToInt_le_one (decide (i < 97))
  have a13 := boolToInt_nonneg (decide (i < 125)); have b13 := boolToInt_le_one (decide (i < 125))
  have a14 := boolToInt_nonneg (decide (i < 45)); have b14 := boolToInt_le_one (decide (i < 45))
  have a15 := boolToInt_nonneg (decide (i < 48)); have b15 := boolToInt_le_one (decide (i < 48))
  constructor <;> omega

theorem AddInterval_bucket_anti (i j : Int) (h : i ≤ j) :
    AddInterval_bucket j ≤ AddInterval_bucket i := by
  unfold AddInterval_bucket
  have c1 := boolToInt_lt_anti i j 41 h
  have c2 := boolToInt_lt_anti i j 92 h
  have c3 := boolToInt_lt_anti i j 124 h
  have c4 := boolToInt_lt_anti i j 58 h
  have c5 := boolToInt_lt_anti i j 11 h
  have c6 := boolToInt_lt_anti i j 46 h
  have c7 := boolToInt_lt_anti i j 36 h
  have c8 := boolToInt_lt_anti i j 47 h
  have c9 := boolToInt_lt_anti i j 64 h
  have c10 := boolToInt_lt_anti i j 4 h
  have c11 := boolToInt_lt_anti i j 61 h
  have c12 := boolToInt_lt_anti i j 97 h
  have c13 := boolToInt_lt_anti i j 125 h
  have c14 := boolToInt_lt_anti i j 45 h
  have c15 := boolToInt_lt_anti i j 48 h
  omega

theorem AddMixers_bucket1_range (i : Int) :
    0 ≤ AddMixers_bucket1 i ∧ AddMixers_bucket1 i ≤ 10 := by
  unfold AddMixers_bucket1
  have a1 := boolToInt_nonneg (decide (i < 1)); have b1 := boolToInt_le_one (decide (i < 1))
  have a2 := boolToInt_nonneg (decide (i < 32)); have b2 := boolToInt_le_one (decide (i < 32))
  have a3 := boolToInt_nonneg (decide (i < 64)); have b3 := boolToInt_le_one (decide (i < 64))
  have a4 := boolToInt_nonneg (decide (i < 128)); have b4 := boolToInt_le_one (decide (i < 128))
  have a5 := boolToInt_nonneg (decide (i < 255)); have b5 := boolToInt_le_one (decide (i < 255))
  have a6 := boolToInt_nonneg (decide (i < 142)); have b6 := boolToInt_le_one (decide (i < 142))
  have a7 := boolToInt_nonneg (decide (i < 138)); have b7 := boolToInt_le_one (decide (i < 138))
  have a8 := boolToInt_nonneg (decide (i < 140)); have b8 := boolToInt_le_one (decide (i < 140))
  have a9 := boolToInt_nonneg (decide (i < 137)); have b9 := boolToInt_le_one (decide (i < 137))
  have a10 := boolToInt_nonneg (decide (i < 97)); have b10 := boolToInt_le_one (decide (i < 97))
  constructor <;> omega

theorem AddMixers_bucket1_anti (i j : Int) (h : i ≤ j) :
    AddMixers_bucket1 j ≤ AddMixers_bucket1 i := by
  unfold AddMixers_bucket1
  have c1 := boolToInt_lt_anti i j 1 h
  have c2 := boolToInt_lt_anti i j 32 h
  have c3 := boolToInt_lt_anti i j 64 h
  have c4 := boolToInt_lt_anti i j 128 h
  have c5 := boolToInt_lt_anti i j 255 h
  have c6 := boolToInt_lt_anti i j 142 h
  have c7 := boolToInt_lt_anti i j 138 h
  have c8 := boolToInt_lt_anti i j 140 h
  have c9 := boolToInt_lt_anti i j 137 h
  have c10 := boolToInt_lt_anti i j 97 h
  omega

/-- C10: each bucket table (`map` of AddInterval, `map1` and `map2` of AddMixers)
has 256 entries; for all byte values `i ≤ j ≤ 255` the entries at `i` lie in
`[0, 15]` and the entry at `j` is at most the entry at `i` (non-increasing);
`map` and `map2` are 15 at 0 and 0 at 255, `map1` is 10 at 0 and 0 at 255. -/
theorem bucket_tables_four_bit (i j : Nat) (hij : i ≤ j) (hj : j < 256) :
    (AddInterval_map.length = 256 ∧ AddMixers_map1.length = 256 ∧
      AddMixers_map2.length = 256) ∧
    (0 ≤ AddInterval_map.getD i 0 ∧ AddInterval_map.getD i 0 ≤ 15) ∧
    (0 ≤ AddMixers_map1.getD i 0 ∧ AddMixers_map1.getD i 0 ≤ 15) ∧
    (0 ≤ AddMixers_map2.getD i 0 ∧ AddMixers_map2.getD i 0 ≤ 15) ∧
    (AddInterval_map.getD j 0 ≤ AddInterval_map.getD i 0 ∧
      AddMixers_map1.getD j 0 ≤ AddMixers_map1.getD i 0 ∧
      AddMixers_map2.getD j 0 ≤ AddMixers_map2.getD i 0) ∧
    (AddInterval_map.getD 0 0 = 15 ∧ AddInterval_map.getD 255 0 = 0) ∧
    (AddMixers_map2.getD 0 0 = 15 ∧ AddMixers_map2.getD 255 0 = 0) ∧
    (AddMixers_map1.getD 0 0 = 10 ∧ AddMixers_map1.getD 255 0 = 0) := by
  have hi : i < 256 := by omega
  have hle : Int.ofNat i ≤ Int.ofNat j := Int.ofNat_le.mpr hij
  unfold AddInterval_map AddMixers_map1 AddMixers_map2
  rw [fillTable_getD _ i hi, fillTable_getD _ i hi, fillTable_getD _ i hi,
    fillTable_getD _ j hj, fillTable_getD _ j hj, fillTable_getD _ j hj,
    fillTable_getD _ 0 (by omega), fillTable_getD _ 0 (by omega), fillTable_getD _ 0 (by omega),
    fillTable_getD _ 255 (by omega), fillTable_getD _ 255 (by omega),
    fillTable_getD _ 255 (by omega)]
  have r1 := AddMixers_bucket1_range (Int.ofNat i)
  refine ⟨⟨fillTable_length _, fillTable_length _, fillTable_length _⟩,
    AddInterval_bucket_range _, ⟨r1.1, by omega⟩, AddInterval_bucket_range _,
    ⟨AddInterval_bucket_anti _ _ hle, AddMixers_bucket1_anti _ _ hle,
      AddInterval_bucket_anti _ _ hle⟩, ⟨by decide, by decide⟩, ⟨by decide, by decide⟩,
    ⟨by decide, by decide⟩⟩

theorem bucket_tables_four_bit_witness :
    (3 : Nat) ≤ 200 ∧ (200 : Nat) < 256 ∧
    (AddInterval_map.getD 200 0 ≤ AddInterval_map.getD 3 0 ∧
      AddMixers_map1.getD 200 0 ≤ AddMixers_map1.getD 3 0 ∧
      AddMixers_map2.getD 200 0 ≤ AddMixers_map2.getD 3 0) :=
  ⟨by decide, by decide, (bucket_tables_four_bit 3 200 (by decide) (by decide)).2.2.2.2.1⟩

/-! ## `Predict` -/

namespace Predictor

variable {V : Type}

theorem WellSized_layers (p : Predictor V) (h : p.WellSized) (ls : List (List V))
    (hls : ls.map List.length = p.layers_.map List.length) :
    ({ p with layers_ := ls } : Predictor V).WellSized := by
  have hlen : ls.length = p.layers_.length := by
    have := congrArg List.length hls
    simpa using this
  have hget : ∀ k, (ls.getD k []).length = (p.layers_.getD k []).length := by
    intro k
    have := congrArg (fun l => l[k]?) hls
    simp only [List.getElem?_map] at this
    rw [List.getD_eq_getElem?_getD, List.getD_eq_getElem?_getD]
    cases h1 : ls[k]? <;> cases h2 : p.layers_[k]? <;> simp_all
  refine ⟨?_, h.mixers3, ?_, ?_, ?_, h.aux_lt, ?_, h.top⟩
  · show ls.length = 3
    rw [hlen]; exact h.layers3
  · show (ls.getD 0 []).length = _
    rw [hget]; exact h.size0
  · show (ls.getD 1 []).length = _
    rw [hget]; exact h.size1
  · show (ls.getD 2 []).length = _
    rw [hget]; exact h.size2
  · intro l hl m hm
    show m.inputs = l ∧ m.input_size = (ls.getD l []).length
    rw [hget]; exact h.wired l hl m hm

theorem Predict_layers_lengths (C : Components V) (p : Predictor V) (h : p.WellSized) :
    (p.Predict C).layers.map List.length = p.layers_.map List.length := by
  rw [(Predict_layers_writes C p h).1]
  obtain ⟨l0, l1, l2, hl⟩ : ∃ l0 l1 l2, p.layers_ = [l0, l1, l2] := by
    have h3 := h.layers3
    match hq : p.layers_, h3 with
    | [a, b, c], _ => exact ⟨a, b, c, rfl⟩
  have hs0 := h.size0
  have hs1 := h.size1
  have hs2 := h.size2
  rw [hl] at hs0 hs1 hs2 ⊢
  simp only [List.getD_cons_zero, List.getD_cons_succ] at hs0 hs1 hs2
  simp [layer0Values, upperLayerValues, hs0, hs1, hs2, GetNumModels]
  omega

theorem Predict_value_eq (C : Components V) (p : Predictor V) :
    (p.Predict C).value =
      if C.feq C.byteMixerPredict C.zero || C.feq C.byteMixerPredict C.one
      then C.byteMixerPredict
      else C.sseProcess (C.Squash (p.MixAt C (p.Predict C).layers 2 0)) := rfl

/-- C1: `Predict` returns the ByteMixer's bit-probability itself when it compares
equal to 0 or to 1, and otherwise the SSE output for the squashed output of
the top-layer mixer `mixers_[2][0]`. -/
theorem Predict_returns_ByteMixer_or_SSE (C : Components V) (p : Predictor V) :
    (p.Predict C).value =
      if C.feq C.byteMixerPredict C.zero = true ∨ C.feq C.byteMixerPredict C.one = true
      then C.byteMixerPredict
      else C.sseProcess (C.Squash
        (C.Mix 2 0 ((p.Predict C).layers.getD
          ((p.mixers_.getD 2 []).getD 0 (Mixer.mk 0 0)).inputs []))) := by
  rw [Predict_value_eq]
  simp only [Bool.or_eq_true, MixAt]

end Predictor

namespace Predictor

variable {V : Type}

theorem upperLayerWrites_eq (p : Predictor V) (L : Nat) :
    p.upperLayerWrites L
      = (List.range ((p.mixers_.getD (L - 1) []).length + p.auxiliary_.length)).map
          (fun i => (L, i)) := by
  unfold upperLayerWrites
  rw [List.range_add, List.map_append, List.map_map]
  rfl

theorem layer0Writes_eq (p : Predictor V) :
    p.layer0Writes = (List.range p.GetNumModels).map (fun i => (0, i)) := by
  unfold layer0Writes GetNumModels
  rw [List.range_succ, List.range_add, List.map_append, List.map_append, List.map_map]
  rfl

theorem count_map_pair (L L2 n i : Nat) :
    ((List.range n).map (fun k => (L2, k))).count (L, i)
      = if L2 = L ∧ i < n then 1 else 0 := by
  induction n with
  | zero => simp
  | succ n ih =>
    rw [List.range_succ, List.map_append, List.count_append, ih]
    simp only [List.map_cons, List.map_nil, List.count_singleton, beq_iff_eq, Prod.mk.injEq]
    by_cases h1 : L2 = L
    · by_cases h2 : i < n
      · have h3 : ¬ n = i := by omega
        have h4 : i < n + 1 := by omega
        simp [h1, h2, h3, h4]
      · by_cases h3 : n = i
        · have h4 : i < n + 1 := by omega
          simp [h1, h2, h3]
        · have h4 : ¬ i < n + 1 := by omega
          simp [h1, h2, h3, h4]
    · simp [h1]

/-- Every slot `Predict` writes is inside its layer, and every slot of layers 1
and 2 is written exactly once. -/
theorem WellSized.writes (C : Components V) (p : Predictor V) (h : p.WellSized) :
    (∀ w ∈ (p.Predict C).writes, w.2 < (p.layers_.getD w.1 []).length) ∧
    (∀ L, (L = 1 ∨ L = 2) → ∀ i, i < (p.layers_.getD L []).length →
      (p.Predict C).writes.count (L, i) = 1) := by
  rw [(Predict_layers_writes C p h).2, layer0Writes_eq, upperLayerWrites_eq,
    upperLayerWrites_eq]
  constructor
  · intro w hw
    simp only [List.mem_append, List.mem_map, List.mem_range] at hw
    rcases hw with ⟨k, hk, rfl⟩ | ⟨k, hk, rfl⟩ | ⟨k, hk, rfl⟩
    · show k < _
      rw [h.size0]; exact hk
    · show k < _
      rw [h.size1]; exact hk
    · show k < _
      rw [h.size2]; exact hk
  · intro L hL i hi
    rw [List.count_append, List.count_append, count_map_pair, count_map_pair, count_map_pair]
    rcases hL with hL | hL <;> subst hL
    · rw [h.size1] at hi
      rw [if_neg (by omega), if_pos ⟨rfl, hi⟩, if_neg (by omega)]
    · rw [h.size2] at hi
      rw [if_neg (by omega), if_neg (by omega), if_pos ⟨rfl, hi⟩]

/-- C6: after `Predict`, slot `i` of layer 0 holds the (clamped and stretched)
prediction of bit model `i`, slot `M + j` that of byte model `j`, slot `M + B`
that of the ByteMixer; the slots written in layer 0 are `0 .. GetNumModels()-1`,
each once, which is the declared size of layer 0. -/
theorem Predict_fills_layer0 (C : Components V) (p : Predictor V) (h : p.WellSized) :
    (∀ i, i < p.models_.length →
      ((p.Predict C).layers.getD 0 [])[i]? = some (C.stretchClamp (C.modelPredict i))) ∧
    (∀ j, j < p.byte_models_.length →
      ((p.Predict C).layers.getD 0 [])[p.models_.length + j]?
        = some (C.stretchClamp (C.byteModelPredict j))) ∧
    ((p.Predict C).layers.getD 0 [])[p.models_.length + p.byte_models_.length]?
      = some (C.stretchClamp C.byteMixerPredict) ∧
    ((p.Predict C).layers.getD 0 []).length = p.GetNumModels ∧
    (p.layers_.getD 0 []).length = p.GetNumModels ∧
    (((p.Predict C).writes.filter (fun w => w.1 == 0)).map Prod.snd
      = List.range p.GetNumModels) ∧
    (((p.Predict C).writes.filter (fun w => w.1 == 0)).map Prod.snd).Nodup := by
  have hw : ((p.Predict C).writes.filter (fun w => w.1 == 0)).map Prod.snd
      = List.range p.GetNumModels := by
    rw [(Predict_layers_writes C p h).2, layer0Writes_eq, upperLayerWrites_eq,
      upperLayerWrites_eq]
    simp [List.filter_append, List.filter_map, Function.comp_def]
  rw [hw, (Predict_layers_writes C p h).1]
  simp only [List.getD_cons_zero]
  refine ⟨?_, ?_, ?_, ?_, h.size0, trivial, List.nodup_range _⟩
  · intro i hi
    unfold layer0Values
    rw [List.append_assoc, List.getElem?_append_left (by simpa using hi)]
    simp [List.getElem?_range hi]
  · intro j hj
    unfold layer0Values
    rw [List.append_assoc, List.getElem?_append_right (by simp)]
    simp [List.getElem?_append_left, hj, List.getElem?_range hj]
  · unfold layer0Values
    rw [List.getElem?_append_right (by simp)]
    simp
  · simp [layer0Values, GetNumModels]
    omega

theorem Predict_fills_layer0_witness :
    examplePredictor.WellSized ∧
    ((examplePredictor.Predict exampleComponents).layers.getD 0 [])[
        examplePredictor.models_.length + examplePredictor.byte_models_.length]?
      = some (exampleComponents.stretchClamp exampleComponents.byteMixerPredict) :=
  ⟨new_WellSized _ _ _ _,
   (Predict_fills_layer0 exampleComponents examplePredictor (new_WellSized _ _ _ _)).2.2.1⟩

/-- C7: the value `Predict` returns and the layer inputs it leaves do not
depend on what the three layer input vectors held on entry; hence a second
`Predict` with no `Perceive` in between returns the same value and leaves
the layer inputs identical. -/
theorem Predict_independent_of_layer_contents (C : Components V) (p : Predictor V)
    (h : p.WellSized) (ls : List (List V))
    (hls : ls.map List.length = p.layers_.map List.length) :
    (({ p with layers_ := ls } : Predictor V).Predict C).value = (p.Predict C).value ∧
    (({ p with layers_ := ls } : Predictor V).Predict C).layers = (p.Predict C).layers ∧
    ((p.afterPredict C).Predict C).value = (p.Predict C).value ∧
    ((p.afterPredict C).Predict C).layers = (p.Predict C).layers := by
  have key : ∀ ls' : List (List V), ls'.map List.length = p.layers_.map List.length →
      (({ p with layers_ := ls' } : Predictor V).Predict C).layers = (p.Predict C).layers ∧
      (({ p with layers_ := ls' } : Predictor V).Predict C).value = (p.Predict C).value := by
    intro ls' hls'
    have hq := WellSized_layers p h ls' hls'
    have e : (({ p with layers_ := ls' } : Predictor V).Predict C).layers
        = (p.Predict C).layers := by
      rw [(Predict_layers_writes C _ hq).1, (Predict_layers_writes C p h).1]
      rfl
    refine ⟨e, ?_⟩
    rw [Predict_value_eq, Predict_value_eq, e]
    rfl
  have h1 := key ls hls
  have h2 := key (p.Predict C).layers (Predict_layers_lengths C p h)
  exact ⟨h1.2, h1.1, h2.2, h2.1⟩

theorem Predict_independent_of_layer_contents_witness :
    examplePredictor.WellSized ∧
    ((examplePredictor.afterPredict exampleComponents).Predict exampleComponents).value
      = (examplePredictor.Predict exampleComponents).value :=
  ⟨new_WellSized _ _ _ _,
   (Predict_independent_of_layer_contents exampleComponents examplePredictor
      (new_WellSized _ _ _ _) examplePredictor.layers_ rfl).2.2.1⟩

/-- C9: in the constructed predictor layer 0 has `M + B + 1` slots, layer 1 has
`17 + 3 = 20` and layer 2 has `11 + 3 = 14`; every slot `Predict` writes is
inside its layer and every slot of layers 1 and 2 is written exactly once;
every auxiliary index is inside layer 0; every mixer reads its own layer and
was given that layer's size as input size; the top layer has one mixer. -/
theorem new_indices_in_range (zero : V) (vocab : List Bool) (nHP nL : Nat)
    (C : Components V) :
    (new zero vocab nHP nL).layers_.map List.length
      = [(new zero vocab nHP nL).models_.length
          + (new zero vocab nHP nL).byte_models_.length + 1, 17 + 3, 11 + 3] ∧
    (new zero vocab nHP nL).mixers_.map List.length = [17, 11, 1] ∧
    (new zero vocab nHP nL).auxiliary_.length = 3 ∧
    (∀ w ∈ ((new zero vocab nHP nL).Predict C).writes,
      w.2 < ((new zero vocab nHP nL).layers_.getD w.1 []).length) ∧
    (∀ L, (L = 1 ∨ L = 2) → ∀ i, i < ((new zero vocab nHP nL).layers_.getD L []).length →
      ((new zero vocab nHP nL).Predict C).writes.count (L, i) = 1) ∧
    (∀ a ∈ (new zero vocab nHP nL).auxiliary_,
      a < ((new zero vocab nHP nL).layers_.getD 0 []).length) ∧
    (∀ l, l < 3 → ∀ m ∈ (new zero vocab nHP nL).mixers_.getD l [],
      m.inputs = l ∧ m.input_size = ((new zero vocab nHP nL).layers_.getD l []).length) ∧
    ((new zero vocab nHP nL).mixers_.getD 2 []).length = 1 := by
  have hws := new_WellSized zero vocab nHP nL
  obtain ⟨_, hM, hB, hA, hL, hX, _, _⟩ := new_fields zero vocab nHP nL
  have hwr := WellSized.writes C _ hws
  refine ⟨?_, ?_, ?_, hwr.1, hwr.2, ?_, hws.wired, hws.top⟩
  · rw [hL, hM, hB]
    simp
    omega
  · rw [hX]; simp
  · rw [hA]; rfl
  · intro a ha
    rw [hws.size0]
    exact hws.aux_lt a ha

end Predictor

/-! ## The auxiliary list -/

namespace Predictor

variable {V : Type}

set_option maxRecDepth 100000 in
theorem laterModels_no_PAQ8 :
    ∀ x ∈ Model.DMC :: laterModels, x ≠ Model.PAQ8HP ∧ x ≠ Model.PAQ8L := by
  decide

theorem models_PAQ8_index (nHP nL : Nat) (tail : List Model)
    (htail : ∀ x ∈ tail, x ≠ Model.PAQ8HP ∧ x ≠ Model.PAQ8L) (s : Nat) :
    (([Model.Bracket, Model.Direct, Model.Indirect, Model.PAQ8HP] ++
        (List.range nHP).map Model.Facade ++ [Model.PAQ8L] ++
        (List.range nL).map Model.Facade ++ tail)[s]? = some Model.PAQ8HP ↔ s = 3) ∧
    (([Model.Bracket, Model.Direct, Model.Indirect, Model.PAQ8HP] ++
        (List.range nHP).map Model.Facade ++ [Model.PAQ8L] ++
        (List.range nL).map Model.Facade ++ tail)[s]? = some Model.PAQ8L ↔ s = 4 + nHP) := by
  simp only [List.getElem?_append, List.length_append, List.length_cons, List.length_nil,
    List.length_map, List.length_range]
  have hF : ∀ (n k : Nat) (m : Model), (∀ i, m ≠ Model.Facade i) →
      ((List.range n).map Model.Facade)[k]? ≠ some m := by
    intro n k m hm hk
    have := List.getElem?_mem hk
    obtain ⟨i, _, hi⟩ := List.mem_map.mp this
    exact hm i hi.symm
  have hT : ∀ k : Nat, tail[k]? ≠ some Model.PAQ8HP ∧ tail[k]? ≠ some Model.PAQ8L := by
    intro k
    exact ⟨fun hk => (htail _ (List.getElem?_mem hk)).1 rfl,
      fun hk => (htail _ (List.getElem?_mem hk)).2 rfl⟩
  constructor
  · split_ifs with h1 h2 h3 h4
    · have : s = 0 ∨ s = 1 ∨ s = 2 ∨ s = 3 := by omega
      rcases this with h | h | h | h <;> subst h <;> simp
    · constructor
      · intro h; exact absurd h (hF _ _ _ (by intro i; simp))
      · intro h; omega
    · have : s - (0 + 1 + 1 + 1 + 1 + nHP) = 0 := by omega
      rw [this]
      constructor
      · intro h; simp at h
      · intro h; omega
    · constructor
      · intro h; exact absurd h (hF _ _ _ (by intro i; simp))
      · intro h; omega
    · constructor
      · intro h; exact absurd h (hT _).1
      · intro h; omega
  · split_ifs with h1 h2 h3 h4
    · have : s = 0 ∨ s = 1 ∨ s = 2 ∨ s = 3 := by omega
      rcases this with h | h | h | h <;> subst h <;> simp <;> omega
    · constructor
      · intro h; exact absurd h (hF _ _ _ (by intro i; simp))
      · intro h; omega
    · have : s - (0 + 1 + 1 + 1 + 1 + nHP) = 0 := by omega
      rw [this]
      constructor
      · intro _; omega
      · intro _; rfl
    · constructor
      · intro h; exact absurd h (hF _ _ _ (by intro i; simp))
      · intro h; omega
    · constructor
      · intro h; exact absurd h (hT _).2
      · intro h; omega

set_option maxRecDepth 100000 in
/-- C3 as stated fails: in the predictor built with two PAQ8HP and three PAQ8L
sub-predictions, DMC is bit model 10 and the three PPM/PPMD byte models own
the slots 119, 120, 121, yet `auxiliary_` is `[3, 6, 122]`: it holds none of
these four slots, so it is not the set of BlackBoxModel slots plus the
ByteMixer slot. -/
theorem auxiliary_omits_DMC_and_PPM :
    examplePredictor.auxiliary_ = [3, 6, 122] ∧
    examplePredictor.models_[10]? = some Model.DMC ∧
    examplePredictor.models_.length = 119 ∧
    examplePredictor.byte_models_ = [ByteModel.PPM 7, ByteModel.PPM 5, ByteModel.PPMD] ∧
    ¬ (∀ s, s ∈ examplePredictor.auxiliary_ ↔ examplePredictor.specAuxiliarySlot s = true) := by
  obtain ⟨hm, hM, hB, hA, _⟩ := new_fields (0 : Rat) (List.replicate 256 true) 2 3
  have h10 : examplePredictor.models_[10]? = some Model.DMC := by
    show (new (0 : Rat) (List.replicate 256 true) 2 3).models_[10]? = some Model.DMC
    rw [hm]
    rfl
  refine ⟨hA, h10, hM, hB, ?_⟩
  intro hall
  have h := (hall 10).mpr (by
    unfold specAuxiliarySlot
    have hMe : examplePredictor.models_.length = 119 := hM
    rw [if_pos (by rw [hMe]; decide), h10]
    rfl)
  have hA' : examplePredictor.auxiliary_ = [3, 6, 122] := hA
  rw [hA'] at h
  revert h
  decide

/-- C3 (amended): the auxiliary list built by the constructor is exactly the
layer-0 slot of PAQ8HP, the layer-0 slot of PAQ8L and the ByteMixer's slot
`M + B`, in this order; a slot is in the list iff it is one of these three. -/
theorem new_auxiliary_is_PAQ8_and_ByteMixer (zero : V) (vocab : List Bool) (nHP nL : Nat) :
    (new zero vocab nHP nL).auxiliary_
      = [3, 4 + nHP, (new zero vocab nHP nL).models_.length
          + (new zero vocab nHP nL).byte_models_.length] ∧
    (new zero vocab nHP nL).models_[3]? = some Model.PAQ8HP ∧
    (new zero vocab nHP nL).models_[4 + nHP]? = some Model.PAQ8L ∧
    ∀ s, s ∈ (new zero vocab nHP nL).auxiliary_ ↔
      ((new zero vocab nHP nL).models_[s]? = some Model.PAQ8HP ∨
       (new zero vocab nHP nL).models_[s]? = some Model.PAQ8L ∨
       s = (new zero vocab nHP nL).models_.length
          + (new zero vocab nHP nL).byte_models_.length) := by
  obtain ⟨hm, hM, hB, hA, _⟩ := new_fields zero vocab nHP nL
  have hidx := models_PAQ8_index nHP nL (Model.DMC :: laterModels) laterModels_no_PAQ8
  rw [hA, hM, hB, hm]
  have hsum : 114 + nHP + nL + [ByteModel.PPM 7, ByteModel.PPM 5, ByteModel.PPMD].length
      = 117 + nHP + nL := by
    simp only [List.length_cons, List.length_nil]
    omega
  rw [hsum]
  refine ⟨rfl, (hidx 3).1.mpr rfl, (hidx (4 + nHP)).2.mpr rfl, ?_⟩
  intro s
  rw [(hidx s).1, (hidx s).2]
  simp

end Predictor

/-! ## `Perceive` -/

theorem foldl_append_flatMap {α β : Type} (g : β → List α) (l : List β) (t : List α) :
    l.foldl (fun t x => t ++ g x) t = t ++ l.flatMap g := by
  induction l generalizing t with
  | nil => simp
  | cons x xs ih => simp [ih]

theorem foldl_append_map {α β : Type} (f : β → α) (l : List β) (t : List α) :
    l.foldl (fun t x => t ++ [f x]) t = t ++ l.map f := by
  induction l generalizing t with
  | nil => simp
  | cons x xs ih => simp [ih]

namespace Predictor

variable {V : Type}

theorem Perceive_components_eq (p : Predictor V) (bit : Bool) (t : List Event) :
    p.Perceive_components bit t ++ [Event.ManagerPerceive bit] = t ++ p.perceiveEvents bit := by
  unfold Perceive_components perceiveEvents
  simp only [foldl_append_map, foldl_append_flatMap, List.append_assoc, List.cons_append,
    List.nil_append]

theorem feed_inner (C : Components V) (i : Nat) (n : Nat) (s : PerceiveState V) :
    (List.range n).foldl
      (fun s j => { s with byte_mixer_ := s.byte_mixer_.SetInput j (C.BytePredict i j),
                           trace := s.trace ++ [Event.ByteMixerSetInput i j] }) s
      = { byte_mixer_ := { s.byte_mixer_ with
            input := (List.range n).foldl (fun m j => m.set j (C.BytePredict i j))
              s.byte_mixer_.input },
          bit_context_ := s.bit_context_,
          trace := s.trace ++ (List.range n).map (fun j => Event.ByteMixerSetInput i j) } := by
  induction n with
  | zero => simp
  | succ n ih =>
    rw [List.range_succ, List.foldl_append, ih]
    simp [ByteMixer.SetInput, List.foldl_append]

theorem feed_outer (C : Components V) (n : Nat) (s : PerceiveState V) :
    (List.range n).foldl
      (fun s i => (List.range 256).foldl
        (fun s j => { s with byte_mixer_ := s.byte_mixer_.SetInput j (C.BytePredict i j),
                             trace := s.trace ++ [Event.ByteMixerSetInput i j] }) s) s
      = { byte_mixer_ := { s.byte_mixer_ with input := feedInput C n s.byte_mixer_.input },
          bit_context_ := s.bit_context_,
          trace := s.trace ++ (List.range n).flatMap
            (fun i => (List.range 256).map (fun j => Event.ByteMixerSetInput i j)) } := by
  induction n with
  | zero => simp [feedInput]
  | succ n ih =>
    rw [List.range_succ n, List.foldl_append, ih]
    simp only [List.foldl_cons, List.foldl_nil, feed_inner, feedInput, List.foldl_append,
      List.flatMap_append, List.flatMap_cons, List.flatMap_nil, List.append_nil,
      List.append_assoc]
    rw [List.range_succ n, List.foldl_append]
    simp only [List.foldl_cons, List.foldl_nil]

theorem Perceive_byteUpdate_eq (C : Components V) (p : Predictor V) (s : PerceiveState V) :
    p.Perceive_byteUpdate C s
      = { byte_mixer_ := { s.byte_mixer_ with
            input := feedInput C p.byte_models_.length s.byte_mixer_.input },
          bit_context_ := 1,
          trace := s.trace ++ p.byteUpdateEvents } := by
  unfold Perceive_byteUpdate byteUpdateEvents
  simp only [feed_outer, foldl_append_map, List.append_assoc]

/-- What `Perceive` does, in closed form. -/
theorem Perceive_eq (C : Components V) (p : Predictor V) (bit : Bool) :
    (p.Perceive C bit).trace
      = p.perceiveEvents bit ++ (if 128 ≤ p.bit_context_ then p.byteUpdateEvents else []) ∧
    (p.Perceive C bit).state.bit_context_
      = (if 128 ≤ p.bit_context_ then 1 else 2 * p.bit_context_ + bit.toNat) ∧
    (p.Perceive C bit).state.byte_mixer_.input
      = (if 128 ≤ p.bit_context_ then feedInput C p.byte_models_.length p.byte_mixer_.input
         else p.byte_mixer_.input) ∧
    (p.Perceive C bit).state.models_ = p.models_ ∧
    (p.Perceive C bit).state.byte_models_ = p.byte_models_ ∧
    (p.Perceive C bit).state.mixers_ = p.mixers_ ∧
    (p.Perceive C bit).state.auxiliary_ = p.auxiliary_ ∧
    (p.Perceive C bit).state.layers_ = p.layers_ := by
  have hc := Perceive_components_eq p bit []
  simp only [List.nil_append] at hc
  unfold Perceive
  simp only [hc, ge_iff_le, Perceive_byteUpdate_eq, ContextManager_Perceive]
  by_cases h : 128 ≤ p.bit_context_
  · simp [h]
  · simp [h]

end Predictor

theorem pairwise_phase_append (l seg : List Event) (c : Nat)
    (hl : l.Pairwise (fun a b => a.phase ≤ b.phase)) (hle : ∀ e ∈ l, e.phase ≤ c)
    (hseg : ∀ e ∈ seg, e.phase = c) :
    (l ++ seg).Pairwise (fun a b => a.phase ≤ b.phase) ∧ ∀ e ∈ l ++ seg, e.phase ≤ c := by
  constructor
  · rw [List.pairwise_append]
    refine ⟨hl, ?_, ?_⟩
    · apply List.pairwise_of_forall_mem_list
      intro a ha b hb
      rw [hseg a ha, hseg b hb]
    · intro a ha b hb
      rw [hseg b hb]
      exact hle a ha
  · intro e he
    rcases List.mem_append.mp he with h | h
    · exact hle e h
    · exact le_of_eq (hseg e h)

namespace Predictor

variable {V : Type}

theorem perceiveEvents_sorted (p : Predictor V) (bit : Bool) :
    (p.perceiveEvents bit).Pairwise (fun a b => a.phase ≤ b.phase) ∧
    ∀ e ∈ p.perceiveEvents bit, e.phase ≤ 5 := by
  have h0 := pairwise_phase_append []
    ((List.range p.models_.length).map (fun i => Event.ModelPerceive i bit)) 0
    List.Pairwise.nil (by simp)
    (by intro e he; obtain ⟨i, _, rfl⟩ := List.mem_map.mp he; rfl)
  have h1 := pairwise_phase_append _
    ((List.range p.byte_models_.length).map (fun i => Event.ByteModelPerceive i bit)) 1
    h0.1 (fun e he => le_trans (h0.2 e he) (by decide))
    (by intro e he; obtain ⟨i, _, rfl⟩ := List.mem_map.mp he; rfl)
  have h2 := pairwise_phase_append _ [Event.ByteMixerPerceive bit] 2
    h1.1 (fun e he => le_trans (h1.2 e he) (by decide))
    (by intro e he; rw [List.mem_singleton.mp he]; rfl)
  have h3 := pairwise_phase_append _
    ((List.range p.mixers_.length).flatMap
      (fun l => (List.range (p.mixers_.getD l []).length).map
        (fun k => Event.MixerPerceive l k bit))) 3
    h2.1 (fun e he => le_trans (h2.2 e he) (by decide))
    (by
      intro e he
      obtain ⟨l, _, hl⟩ := List.mem_flatMap.mp he
      obtain ⟨k, _, rfl⟩ := List.mem_map.mp hl
      rfl)
  have h4 := pairwise_phase_append _ [Event.SsePerceive bit] 4
    h3.1 (fun e he => le_trans (h3.2 e he) (by decide))
    (by intro e he; rw [List.mem_singleton.mp he]; rfl)
  have h5 := pairwise_phase_append _ [Event.ManagerPerceive bit] 5
    h4.1 (fun e he => le_trans (h4.2 e he) (by decide))
    (by intro e he; rw [List.mem_singleton.mp he]; rfl)
  have e : p.perceiveEvents bit =
      [] ++ (List.range p.models_.length).map (fun i => Event.ModelPerceive i bit) ++
      (List.range p.byte_models_.length).map (fun i => Event.ByteModelPerceive i bit) ++
      [Event.ByteMixerPerceive bit] ++
      (List.range p.mixers_.length).flatMap
        (fun l => (List.range (p.mixers_.getD l []).length).map
          (fun k => Event.MixerPerceive l k bit)) ++
      [Event.SsePerceive bit] ++ [Event.ManagerPerceive bit] := by
    simp [perceiveEvents]
  rw [e]
  exact h5

theorem Perceive_trace_sorted (p : Predictor V) (bit : Bool) :
    (p.perceiveEvents bit ++ p.byteUpdateEvents).Pairwise (fun a b => a.phase ≤ b.phase) := by
  have hp := perceiveEvents_sorted p bit
  have h6 := pairwise_phase_append _
    ((List.range p.models_.length).map Event.ModelByteUpdate) 6
    hp.1 (fun e he => le_trans (hp.2 e he) (by decide))
    (by intro e he; obtain ⟨i, _, rfl⟩ := List.mem_map.mp he; rfl)
  have h7 := pairwise_phase_append _
    ((List.range p.byte_models_.length).map Event.ByteModelByteUpdate) 7
    h6.1 (fun e he => le_trans (h6.2 e he) (by decide))
    (by intro e he; obtain ⟨i, _, rfl⟩ := List.mem_map.mp he; rfl)
  have h8 := pairwise_phase_append _
    ((List.range p.byte_models_.length).flatMap
      (fun i => (List.range 256).map (fun j => Event.ByteMixerSetInput i j))) 8
    h7.1 (fun e he => le_trans (h7.2 e he) (by decide))
    (by
      intro e he
      obtain ⟨l, _, hl⟩ := List.mem_flatMap.mp he
      obtain ⟨k, _, rfl⟩ := List.mem_map.mp hl
      rfl)
  have h9 := pairwise_phase_append _ [Event.ByteMixerByteUpdate] 9
    h8.1 (fun e he => le_trans (h8.2 e he) (by decide))
    (by intro e he; rw [List.mem_singleton.mp he]; rfl)
  have h10 := pairwise_phase_append _ [Event.ResetBitContext] 10
    h9.1 (fun e he => le_trans (h9.2 e he) (by decide))
    (by intro e he; rw [List.mem_singleton.mp he]; rfl)
  have e : p.perceiveEvents bit ++ p.byteUpdateEvents =
      p.perceiveEvents bit ++ (List.range p.models_.length).map Event.ModelByteUpdate ++
      (List.range p.byte_models_.length).map Event.ByteModelByteUpdate ++
      (List.range p.byte_models_.length).flatMap
        (fun i => (List.range 256).map (fun j => Event.ByteMixerSetInput i j)) ++
      [Event.ByteMixerByteUpdate] ++ [Event.ResetBitContext] := by
    simp [byteUpdateEvents]
  rw [e]
  exact h10.1

/-- C4: `Perceive(bit)` calls, in this order: `Perceive` on every bit model in
registration order, on every byte model, on the ByteMixer, on every mixer
layer by layer, on the SSE, and then on the ContextManager; when the call was
entered with `bit_context_ >= 128` there follow `ByteUpdate` on every bit
model, on every byte model, the ByteMixer `SetInput` calls, the ByteMixer's
`ByteUpdate` and the reset of `bit_context_` to 1, and otherwise nothing. -/
theorem Perceive_schedule (C : Components V) (p : Predictor V) (bit : Bool) :
    (p.Perceive C bit).trace =
      ((List.range p.models_.length).map (fun i => Event.ModelPerceive i bit) ++
       (List.range p.byte_models_.length).map (fun i => Event.ByteModelPerceive i bit) ++
       [Event.ByteMixerPerceive bit] ++
       (List.range p.mixers_.length).flatMap
         (fun l => (List.range (p.mixers_.getD l []).length).map
           (fun k => Event.MixerPerceive l k bit)) ++
       [Event.SsePerceive bit, Event.ManagerPerceive bit]) ++
      (if 128 ≤ p.bit_context_ then
        (List.range p.models_.length).map Event.ModelByteUpdate ++
        (List.range p.byte_models_.length).map Event.ByteModelByteUpdate ++
        (List.range p.byte_models_.length).flatMap
          (fun i => (List.range 256).map (fun j => Event.ByteMixerSetInput i j)) ++
        [Event.ByteMixerByteUpdate, Event.ResetBitContext]
       else []) ∧
    (p.Perceive C bit).trace.Pairwise (fun a b => a.phase ≤ b.phase) ∧
    (p.Perceive C bit).state.bit_context_
      = (if 128 ≤ p.bit_context_ then 1 else ContextManager_Perceive p.bit_context_ bit) := by
  obtain ⟨ht, hb, _⟩ := Perceive_eq C p bit
  refine ⟨ht, ?_, hb⟩
  rw [ht]
  by_cases h : 128 ≤ p.bit_context_
  · rw [if_pos h]
    exact Perceive_trace_sorted p bit
  · rw [if_neg h, List.append_nil]
    exact (perceiveEvents_sorted p bit).1

end Predictor

namespace Predictor

variable {V : Type}

theorem run_snoc (p : Predictor V) (steps : List (Components V × Bool))
    (cb : Components V × Bool) :
    p.run (steps ++ [cb]) = (((p.run steps).afterPredict cb.1).Perceive cb.1 cb.2).state := by
  simp [run, List.foldl_append]

theorem step_bit_context (C : Components V) (p : Predictor V) (bit : Bool) :
    (((p.afterPredict C).Perceive C bit).state).bit_context_
      = if 128 ≤ p.bit_context_ then 1 else 2 * p.bit_context_ + bit.toNat :=
  (Perceive_eq C (p.afterPredict C) bit).2.1

/-- After `n` bits the accumulator holds the sentinel bit followed by the
`n mod 8` bits of the byte in flight. -/
theorem run_bit_context_bounds (p : Predictor V) (h1 : p.bit_context_ = 1)
    (steps : List (Components V × Bool)) :
    2 ^ (steps.length % 8) ≤ (p.run steps).bit_context_ ∧
    (p.run steps).bit_context_ < 2 ^ (steps.length % 8 + 1) := by
  refine List.reverseRecOn steps ?_ ?_
  · simp [run, h1]
  · intro l a ih
    rw [run_snoc, step_bit_context, List.length_append, List.length_singleton]
    have hb : a.2.toNat ≤ 1 := Bool.toNat_le a.2
    have hk : l.length % 8 < 8 := Nat.mod_lt _ (by decide)
    generalize hacc : (p.run l).bit_context_ = acc at ih ⊢
    generalize hn : l.length = n at ih hk ⊢
    generalize hr : n % 8 = k at ih hk
    have hcases : k = 0 ∨ k = 1 ∨ k = 2 ∨ k = 3 ∨ k = 4 ∨ k = 5 ∨ k = 6 ∨ k = 7 := by omega
    rcases hcases with h | h | h | h | h | h | h | h <;> subst h
    · have e : (n + 1) % 8 = 1 := by omega
      rw [e]; norm_num at ih ⊢; split_ifs <;> omega
    · have e : (n + 1) % 8 = 2 := by omega
      rw [e]; norm_num at ih ⊢; split_ifs <;> omega
    · have e : (n + 1) % 8 = 3 := by omega
      rw [e]; norm_num at ih ⊢; split_ifs <;> omega
    · have e : (n + 1) % 8 = 4 := by omega
      rw [e]; norm_num at ih ⊢; split_ifs <;> omega
    · have e : (n + 1) % 8 = 5 := by omega
      rw [e]; norm_num at ih ⊢; split_ifs <;> omega
    · have e : (n + 1) % 8 = 6 := by omega
      rw [e]; norm_num at ih ⊢; split_ifs <;> omega
    · have e : (n + 1) % 8 = 7 := by omega
      rw [e]; norm_num at ih ⊢; split_ifs <;> omega
    · have e : (n + 1) % 8 = 0 := by omega
      rw [e]; norm_num at ih ⊢; split_ifs <;> omega

theorem byteUpdate_in_trace (C : Components V) (p : Predictor V) (bit : Bool) :
    (∃ e ∈ (p.Perceive C bit).trace, 6 ≤ e.phase) ↔ 128 ≤ p.bit_context_ := by
  rw [(Perceive_eq C p bit).1]
  constructor
  · rintro ⟨e, he, h6⟩
    by_contra hlt
    rw [if_neg hlt, List.append_nil] at he
    have := (perceiveEvents_sorted p bit).2 e he
    omega
  · intro h
    rw [if_pos h]
    refine ⟨Event.ByteMixerByteUpdate, ?_, by decide⟩
    simp [byteUpdateEvents]

/-- C5: starting from `bit_context_ = 1`, after any sequence of `Perceive`
calls the BitAccumulator is in `[1, 255]` and equals 1 exactly when the number
of bits consumed is a multiple of 8; the next `Perceive` makes a ByteUpdate-phase
call exactly when it is entered with `bit_context_ >= 128`, which is exactly
when it consumes the 8th bit of a byte. -/
theorem run_BitAccumulator (p : Predictor V) (h1 : p.bit_context_ = 1)
    (steps : List (Components V × Bool)) (C : Components V) (bit : Bool) :
    1 ≤ (p.run steps).bit_context_ ∧ (p.run steps).bit_context_ ≤ 255 ∧
    ((p.run steps).bit_context_ = 1 ↔ steps.length % 8 = 0) ∧
    ((∃ e ∈ (((p.run steps).afterPredict C).Perceive C bit).trace, 6 ≤ e.phase)
      ↔ 128 ≤ (p.run steps).bit_context_) ∧
    ((∃ e ∈ (((p.run steps).afterPredict C).Perceive C bit).trace, 6 ≤ e.phase)
      ↔ (steps.length + 1) % 8 = 0) := by
  have hb := run_bit_context_bounds p h1 steps
  have ht := byteUpdate_in_trace C ((p.run steps).afterPredict C) bit
  have hbc : ((p.run steps).afterPredict C).bit_context_ = (p.run steps).bit_context_ := rfl
  rw [hbc] at ht
  rw [ht]
  have hk : steps.length % 8 < 8 := Nat.mod_lt _ (by decide)
  generalize (p.run steps).bit_context_ = acc at hb ⊢
  generalize hn : steps.length = n at hb hk ⊢
  generalize hr : n % 8 = k at hb hk ⊢
  have hcases : k = 0 ∨ k = 1 ∨ k = 2 ∨ k = 3 ∨ k = 4 ∨ k = 5 ∨ k = 6 ∨ k = 7 := by omega
  rcases hcases with h | h | h | h | h | h | h | h <;> subst h <;> norm_num at hb <;>
    refine ⟨by omega, by omega, by omega, Iff.rfl, by omega⟩

theorem run_BitAccumulator_witness :
    examplePredictor.bit_context_ = 1 ∧
    ((examplePredictor.run (List.replicate 7 (exampleComponents, true))).bit_context_ = 1
      ↔ (List.replicate 7 (exampleComponents, true)).length % 8 = 0) :=
  ⟨(new_fields _ _ _ _).2.2.2.2.2.2.2,
   (run_BitAccumulator examplePredictor (new_fields _ _ _ _).2.2.2.2.2.2.2
      (List.replicate 7 (exampleComponents, true)) exampleComponents true).2.2.1⟩

end Predictor

namespace Predictor

variable {V : Type}

end Predictor

namespace Predictor

variable {V : Type}

/-- The sizes and wiring that `Predict` relies on hold in every state reached
from a well-sized predictor, in particular from the constructed one. -/
theorem run_WellSized (p : Predictor V) (h : p.WellSized)
    (steps : List (Components V × Bool)) : (p.run steps).WellSized := by
  refine List.reverseRecOn steps ?_ ?_
  · exact h
  · intro l a ih
    rw [run_snoc]
    have hq : ((p.run l).afterPredict a.1).WellSized :=
      WellSized_layers (p.run l) ih _ (Predict_layers_lengths a.1 (p.run l) ih)
    obtain ⟨_, _, _, e1, e2, e3, e4, e5⟩ := Perceive_eq a.1 ((p.run l).afterPredict a.1) a.2
    refine ⟨?_, ?_, ?_, ?_, ?_, ?_, ?_, ?_⟩
    · rw [e5]; exact hq.layers3
    · rw [e3]; exact hq.mixers3
    · rw [e5]; unfold GetNumModels; rw [e1, e2]; exact hq.size0
    · rw [e5, e3, e4]; exact hq.size1
    · rw [e5, e3, e4]; exact hq.size2
    · rw [e4]; unfold GetNumModels; rw [e1, e2]; exact hq.aux_lt
    · rw [e3, e5]; exact hq.wired
    · rw [e3]; exact hq.top

end Predictor

end Cmix
